import Mathlib

set_option maxHeartbeats 1000000
set_option maxRecDepth 100000

namespace VarelaDigital

/-! ### Definitions -/

/-- The TEI namespace URI, constant `TEI_NS` in the viewer scripts. -/
def TEI_NS : String := "http://www.tei-c.org/ns/1.0"

/-- The XML namespace URI, constant `XML_NS` in the viewer scripts. -/
def XML_NS : String := "http://www.w3.org/XML/1998/namespace"

/-- Shallow model of a DOM node as the viewer scripts observe it:
a text node (`nodeType === Node.TEXT_NODE`) with its `textContent`,
an element node with `namespaceURI`, `localName`, its attribute list
(the key `"xml:id"` stands for the namespaced id attribute) and `childNodes`,
or any other node kind (comment, processing instruction). -/
inductive XNode : Type where
  | text (content : String) : XNode
  | elem (ns : String) (localName : String) (attrs : List (String × String)) (children : List XNode) : XNode
  | comment : XNode

/-- `node.getAttribute(name)`; `none` models the JS `null` for an absent attribute. -/
def getAttr (attrs : List (String × String)) (name : String) : Option String :=
  (attrs.find? (fun p => p.1 = name)).map (·.2)

/-- `getAttribute` on a node (non-elements carry no attributes). -/
def XNode.getAttribute : XNode → String → Option String
  | .elem _ _ attrs _, name => getAttr attrs name
  | _, _ => none

/-- JS `String.prototype.trim` (whitespace at both ends removed), computable model. -/
def jsTrim (s : String) : String :=
  String.mk (((s.data.dropWhile Char.isWhitespace).reverse.dropWhile Char.isWhitespace).reverse)

/-- `attr(node, name)` utility of part_004 / viewer.js: `(node.getAttribute(name) || '').trim()`. -/
def attrT (n : XNode) (name : String) : String :=
  jsTrim ((n.getAttribute name).getD "")

mutual
/-- `node.textContent`: concatenation of all descendant text nodes. -/
def XNode.textContent : XNode → String
  | .text s => s
  | .comment => ""
  | .elem _ _ _ cs => textContentList cs

def textContentList : List XNode → String
  | [] => ""
  | c :: cs => c.textContent ++ textContentList cs
end

/-- JS `String.prototype.toLowerCase` (the scripts only rely on its ASCII behaviour). -/
def jsToLower (s : String) : String := String.mk (s.data.map Char.toLower)

/-! ## HTML output model

`renderNode` builds DOM nodes with `document.createElement`, `className`
assignments, `dataset` writes, `textContent` writes and `appendChild`.
The output is modelled as a tree: an element carries its tag, its
`className`, its `data-*` attributes (as key/value pairs, `"ref"` for
`data-ref`) and its children; `document.createDocumentFragment()` is
a `frag`; a `textContent` write on a fresh element is its single text
child. -/
inductive HNode : Type where
  | text (content : String) : HNode
  | frag (children : List HNode) : HNode
  | elem (tag : String) (className : String) (dataAttrs : List (String × String)) (children : List HNode) : HNode

/-- `span.dataset.k` read on a rendered element's data attributes. -/
def dataGet (dataAttrs : List (String × String)) (k : String) : Option String :=
  getAttr dataAttrs k

mutual
/-- Concatenated text content of a rendered HTML fragment (used to observe
what a rendering keeps or drops). -/
def HNode.htmlText : HNode → String
  | .text s => s
  | .frag cs => htmlTextList cs
  | .elem _ _ _ cs => htmlTextList cs

/-- Text content of a list of rendered nodes. -/
def htmlTextList : List HNode → String
  | [] => ""
  | c :: cs => c.htmlText ++ htmlTextList cs
end

/-! ## The recursive TEI → HTML renderer

`renderNode` from viewer.js (first version in the file, lines 506-605).
The module-level `VIEW_MODE` is passed as the explicit `mode` parameter.
The dispatch key is `(node.localName || node.tagName || '').toLowerCase()`. -/
/-- The `find` callback used by the `choice` case (viewer.js lines 539-541):
an element child whose lowercased `localName` is `'expan'`. -/
def isExpanElem : XNode → Bool
  | .elem _ ln _ _ => jsToLower ln = "expan"
  | _ => false

/-- Block names that render as `span` in the fall-through group of cases
(viewer.js lines 548-560). -/
def spanGroupNames : List String :=
  ["abbr", "expan", "hi", "seg", "signed", "salute", "dateline",
   "opener", "closer", "postscript", "note", "address"]

/-- Of the span group, the names re-assigned to a `div` (viewer.js line 563). -/
def divGroupNames : List String :=
  ["opener", "closer", "postscript", "note", "address", "dateline"]

/-- The `data-ref` write of the annotated-entity case (viewer.js lines 584-585):
`const ref = node.getAttribute('ref'); if (ref) el.dataset.ref = ref;`.
The value is stored verbatim (no `'#'` stripping happens here). -/
def refDataOf (attrs : List (String × String)) : List (String × String) :=
  match getAttr attrs "ref" with
  | some r => if r = "" then [] else [("ref", r)]
  | none => []

/-- The `data-when` write of the `date` case (viewer.js lines 587-590). -/
def whenDataOf (name : String) (attrs : List (String × String)) : List (String × String) :=
  if name = "date" then
    match getAttr attrs "when" with
    | some w => if w = "" then [] else [("when", w)]
    | none => []
  else []

mutual
/-- `renderNode` of viewer.js lines 506-605, with `VIEW_MODE` as `mode`. -/
def renderNode (mode : String) : XNode → HNode
  | .text s => .text s
  | .comment => .frag []
  | .elem _ns ln attrs children =>
    let name := jsToLower ln
    if name = "div" then .elem "div" "" [] (renderNodes mode children)
    else if name = "p" then .elem "p" "" [] (renderNodes mode children)
    else if name = "head" then .elem "h3" "" [] (renderNodes mode children)
    else if name = "lb" then .elem "br" "" [] []
    else if name = "choice" then
      -- In reading view, prefer expan; otherwise show full content
      if mode = "reading" then renderFirstExpan mode children
      else .elem "span" "" [] (renderNodes mode children)
    else if name ∈ spanGroupNames then
      if name ∈ divGroupNames then .elem "div" "" [] (renderNodes mode children)
      else .elem "span" "" [] (renderNodes mode children)
    else if name = "pb" then
      let n := (getAttr attrs "n").getD ""
      .elem "span" "page-break" []
        [.text (if mode = "reading" then "[" ++ n ++ "]" else "[pb " ++ n ++ "]")]
    else if name = "persname" ∨ name = "placename" ∨ name = "orgname" ∨ name = "date" then
      .elem "span" "annotated" (refDataOf attrs ++ whenDataOf name attrs) (renderNodes mode children)
    else .elem "span" "" [] (renderNodes mode children)

/-- The `choice` reading-mode branch: `node.childNodes.find(isExpanElem)` rendered,
or an empty fragment when no `expan` child exists (viewer.js line 542). -/
def renderFirstExpan (mode : String) : List XNode → HNode
  | [] => .frag []
  | c :: cs => if isExpanElem c then renderNode mode c else renderFirstExpan mode cs

/-- The child-rendering loop `node.childNodes.forEach(ch => el.appendChild(renderNode(ch)))`. -/
def renderNodes (mode : String) : List XNode → List HNode
  | [] => []
  | c :: cs => renderNode mode c :: renderNodes mode cs
end

/-- A `choice` node containing only an `abbr` child. -/
def choiceAbbrOnly : XNode :=
  .elem TEI_NS "choice" [] [.elem TEI_NS "abbr" [] [.text "Sr."]]

/-- A persName span whose `ref` is `#p-12` (an identifier with hyphen and digits). -/
def persNameRefNode : XNode := .elem TEI_NS "persName" [("ref", "#p-12")] [.text "João"]

/-! ## Folio-identifier extraction (part_004 lines 517-529)

`extractFolioFromSeg` lowercases the node's `textContent` and takes the
first match of the regex `(\d+[rv])`; `extractFolioFromPlace` does the
same on an attribute string.  JS regex first-match semantics for this
pattern: scan positions left to right; at a position the pattern matches
iff a non-empty maximal digit run starts there and the character right
after the run is `r` or `v` (backtracking `\d+` to a shorter run cannot
help since the following character would then be a digit). -/
/-- Try to match `\d+[rv]` anchored at the head of the character list:
the maximal digit run followed by `r` or `v`. -/
def folioAt (cs : List Char) : Option (List Char) :=
  let ds := cs.takeWhile Char.isDigit
  if ds = [] then none
  else
    match cs.drop ds.length with
    | c :: _ => if c = 'r' ∨ c = 'v' then some (ds ++ [c]) else none
    | [] => none

/-- Leftmost match of `\d+[rv]` over a character list (JS `String.match`
with a non-global regex). -/
def folioScan : List Char → Option (List Char)
  | [] => none
  | c :: cs =>
    match folioAt (c :: cs) with
    | some t => some t
    | none => folioScan cs

/-- `extractFolioFromSeg(segNode)` (part_004 lines 521-524):
`segNode.textContent.toLowerCase().match(/(\d+[rv])/)`, returning the
matched group or `''`. -/
def extractFolioFromSeg (segNode : XNode) : String :=
  match folioScan (jsToLower segNode.textContent).data with
  | some t => String.mk t
  | none => ""

/-- `extractFolioFromPlace(placeAttr)` (part_004 lines 526-529). -/
def extractFolioFromPlace (placeAttr : String) : String :=
  match folioScan (jsToLower placeAttr).data with
  | some t => String.mk t
  | none => ""

/-- A seg node whose text contains `Fol. 12R` (case and punctuation included). -/
def segFol12R : XNode := .elem TEI_NS "seg" [("type", "folio")] [.text "Fol. 12R"]

/-- A seg node whose text contains two folio tokens, `3v` before `12r`. -/
def segTwoTokens : XNode := .elem TEI_NS "seg" [("type", "folio")] [.text "fols. 3v and 12r"]

/-- A seg node whose text contains no folio token. -/
def segNoToken : XNode := .elem TEI_NS "seg" [("type", "folio")] [.text "first page"]

/-! ## Surface/page slicing (part_004 lines 517-581)

`sliceBySurface(divNode, targetSurface)` walks the division's top-level
nodes keeping a mutable `activeSurface` (seeded with `surfaces[0]`, the
first declared facsimile surface, possibly `undefined` = `none`) and a
`Map` of buckets (`ensure`/`push`); it finally returns
`buckets.get(wanted) || []`.  The `Map` is modelled as an insertion-ordered
association list with unique keys of type `Option String`. -/
/-- `normalizeFolio(f)`: `(f || '').trim()`. -/
def normalizeFolio (f : String) : String := jsTrim f

/-- The filter of `collectTopLevelElementNodes` (part_004 lines 531-536):
element nodes, plus text nodes with non-blank content. -/
def keepTopLevel : XNode → Bool
  | .elem _ _ _ _ => true
  | .text s => jsTrim s ≠ ""
  | .comment => false

/-- `collectTopLevelElementNodes(divNode)` applied to the division's
`childNodes` list. -/
def collectTopLevelElementNodes (divChildren : List XNode) : List XNode :=
  divChildren.filter keepTopLevel

/-- A TEI page-break marker: `n.namespaceURI === TEI_NS && n.localName === 'pb'`. -/
def isPbMarker : XNode → Bool
  | .elem ns ln _ _ => ns == TEI_NS && ln == "pb"
  | _ => false

/-- A TEI folio segment: `localName === 'seg' && attr(n,'type') === 'folio'`. -/
def isFolioSeg (n : XNode) : Bool :=
  match n with
  | .elem ns ln _ _ => ns == TEI_NS && ln == "seg" && attrT n "type" == "folio"
  | _ => false

/-- A TEI endorsement note: `localName === 'note' && attr(n,'type') === 'endorsement'`. -/
def isEndorsementNote (n : XNode) : Bool :=
  match n with
  | .elem ns ln _ _ => ns == TEI_NS && ln == "note" && attrT n "type" == "endorsement"
  | _ => false

/-- Page-break transition: `const pbN = normalizeFolio(attr(n,'n')); if (pbN) activeSurface = pbN;`. -/
def pbNext (n : XNode) (active : Option String) : Option String :=
  let pbN := normalizeFolio (attrT n "n")
  if pbN ≠ "" then some pbN else active

/-- Folio-segment transition: `const fol = extractFolioFromSeg(n); if (fol) activeSurface = fol;`. -/
def segNext (n : XNode) (active : Option String) : Option String :=
  let fol := extractFolioFromSeg n
  if fol ≠ "" then some fol else active

/-- Endorsement-note bucket key: `ensure(fol || activeSurface)` with
`fol = extractFolioFromPlace(attr(n,'place'))`. -/
def endorsementKey (n : XNode) (active : Option String) : Option String :=
  let fol := extractFolioFromPlace (attrT n "place")
  if fol ≠ "" then some fol else active

/-- The bucket `Map`: insertion-ordered association list with unique keys. -/
abbrev Buckets := List (Option String × List XNode)

/-- `ensure(s)`: create an empty bucket for `s` if absent. -/
def ensure (s : Option String) : Buckets → Buckets
  | [] => [(s, [])]
  | (k, v) :: rest => if k = s then (k, v) :: rest else (k, v) :: ensure s rest

/-- `ensure(s).push(n)`: append `n` to the bucket of `s`, creating it if absent. -/
def pushTo (s : Option String) (n : XNode) : Buckets → Buckets
  | [] => [(s, [n])]
  | (k, v) :: rest => if k = s then (k, v ++ [n]) :: rest else (k, v) :: pushTo s n rest

/-- `buckets.get(s)` (`none` when the key is absent). -/
def bucketGet (b : Buckets) (s : Option String) : Option (List XNode) :=
  (b.find? (fun p => p.1 = s)).map (·.2)

/-- The bucket content of `s`, empty when the bucket is absent. -/
def bucketContent (b : Buckets) (s : Option String) : List XNode :=
  (bucketGet b s).getD []

/-- The `for (const n of kids)` loop of `sliceBySurface` (part_004 lines 553-578). -/
def sliceLoop : Buckets → Option String → List XNode → Buckets
  | b, _, [] => b
  | b, active, n :: rest =>
    if isPbMarker n then sliceLoop b (pbNext n active) rest
    else if isFolioSeg n then sliceLoop b (segNext n active) rest
    else if isEndorsementNote n then sliceLoop (pushTo (endorsementKey n active) n b) active rest
    else sliceLoop (pushTo active n b) active rest

/-- The pre-created buckets: `surfaces.forEach(ensure)` starting from an empty map. -/
def initBuckets (surfaces : List String) : Buckets :=
  surfaces.foldl (fun b s => ensure (some s) b) []

/-- The full bucket map built by `sliceBySurface` for a division's children. -/
def sliceBuckets (surfaces : List String) (divChildren : List XNode) : Buckets :=
  sliceLoop (initBuckets surfaces) surfaces.head? (collectTopLevelElementNodes divChildren)

/-- `sliceBySurface(divNode, targetSurface)` (part_004 lines 538-581);
`wanted = normalizeFolio(targetSurface) || surfaces[0]`, and the returned
value is `buckets.get(wanted) || []`. -/
def sliceBySurface (surfaces : List String) (divChildren : List XNode)
    (targetSurface : String) : List XNode :=
  let wanted : Option String :=
    if normalizeFolio targetSurface ≠ "" then some (normalizeFolio targetSurface)
    else surfaces.head?
  (bucketGet (sliceBuckets surfaces divChildren) wanted).getD []

/-- Modelled from the spec (§4.4, Surface/Page Slicer): the declarative state
machine that labels each non-marker content node with the surface active at
its position; page-break markers and folio segments switch the active surface
and are themselves dropped; an endorsement-type note is labelled by the folio
code of its own place attribute when present, else by the active surface. -/
def surfaceLabels (active : Option String) : List XNode → List (Option String × XNode)
  | [] => []
  | n :: rest =>
    if isPbMarker n then surfaceLabels (pbNext n active) rest
    else if isFolioSeg n then surfaceLabels (segNext n active) rest
    else if isEndorsementNote n then (endorsementKey n active, n) :: surfaceLabels active rest
    else (active, n) :: surfaceLabels active rest

/-- Concrete content nodes and page-break markers for slicing examples. -/
def pElemOne : XNode := .elem TEI_NS "p" [] [.text "one"]

def pElemTwo : XNode := .elem TEI_NS "p" [] [.text "two"]

def pbToB : XNode := .elem TEI_NS "pb" [("n", "b")] []

def pbToA : XNode := .elem TEI_NS "pb" [("n", "a")] []

/-- A surface marker in the sense of C3: page-break markers and folio segments
(the nodes the slicer consumes without bucketing). -/
def isSurfaceMarker (n : XNode) : Bool := isPbMarker n || isFolioSeg n

/-- All buckets' content concatenated in surface (bucket-insertion) order. -/
def allBucketsConcat (surfaces : List String) (divChildren : List XNode) : List XNode :=
  ((sliceBuckets surfaces divChildren).map (·.2)).flatten

/-- The division children of the C3 counterexample: page breaks alternate
back to an earlier surface (`b`, then content, then `a`, then content). -/
def interleavedChildren : List XNode := [pbToB, pElemOne, pbToA, pElemTwo]

/-! ## Standoff loading and indexing

Two loader variants are modelled:
* `loadStandoffFiles_v1` — viewer.js lines 162-180: rebuilds the index from
  scratch on every call and fetches all four files with `Promise.all`
  (a single rejection propagates and aborts the whole build);
* `loadStandoffFiles_v3` — viewer.js lines 1213-1273 (same structure as
  part_004 lines 353-386): guarded by `STANDOFF_INDEX.__loaded`, with a
  per-file `try/catch` that logs and skips a failing file.

The network and the XML parser are modelled as an environment mapping a
path to `Except` (a thrown fetch or parse error, or the parsed document's
root element); the `STANDOFF_INDEX` object is an insertion-ordered
association list with unique keys, plus the `__loaded` flag; a log of
attempted fetch paths makes "no further fetches" observable. -/
/-- The fetch/parse environment: `fetchXML(path)` either throws or yields a document. -/
abbrev Env := String → Except String XNode

/-- Module state touched by the loaders. -/
structure LoaderState where
  index : List (String × XNode)
  loaded : Bool
  fetched : List String

/-- Fresh module state: empty index, `__loaded` unset, nothing fetched. -/
def initState : LoaderState := ⟨[], false, []⟩

/-- `STANDOFF_INDEX[id] = node`: overwrite-or-append on the association list. -/
def setIndex (id : String) (n : XNode) : List (String × XNode) → List (String × XNode)
  | [] => [(id, n)]
  | (k, v) :: rest => if k = id then (k, n) :: rest else (k, v) :: setIndex id n rest

/-- `STANDOFF_INDEX[id]` lookup. -/
def indexGet (id : String) (ix : List (String × XNode)) : Option XNode :=
  (ix.find? (fun p => p.1 = id)).map (·.2)

mutual
/-- All descendant-or-self element nodes of a node, in document order (the
node set of the XPath `//x` step and of `getElementsByTagName`). -/
def XNode.elemsUnder : XNode → List XNode
  | .elem ns ln attrs cs => .elem ns ln attrs cs :: elemsUnderList cs
  | _ => []

/-- Descendant-or-self elements of a node list. -/
def elemsUnderList : List XNode → List XNode
  | [] => []
  | c :: cs => c.elemsUnder ++ elemsUnderList cs
end

/-- `xAll(doc, '//tei:tag')`: TEI-namespace elements with the given local name. -/
def xAllTag (doc : XNode) (tag : String) : List XNode :=
  doc.elemsUnder.filter fun n =>
    match n with
    | .elem ns ln _ _ => ns == TEI_NS && ln == tag
    | _ => false

/-- `doc.getElementsByTagName(tag)` (qualified-name match; in this model the
qualified name of an element is its local name). -/
def byTagName (doc : XNode) (tag : String) : List XNode :=
  doc.elemsUnder.filter fun n =>
    match n with
    | .elem _ ln _ _ => ln == tag
    | _ => false

/-- The third fallback of the v3 loader: any-namespace, case-insensitive
local-name match over `getElementsByTagName('*')`. -/
def byLocalNameCI (doc : XNode) (tag : String) : List XNode :=
  doc.elemsUnder.filter fun n =>
    match n with
    | .elem _ ln _ _ => jsToLower ln == jsToLower tag
    | _ => false

/-- One tag's lookup in the v3 loader (viewer.js lines 1238-1251): XPath in
the TEI namespace, else no-namespace `getElementsByTagName`, else
case-insensitive local-name scan. -/
def collectTagNodes (doc : XNode) (tag : String) : List XNode :=
  let f1 := xAllTag doc tag
  if f1.length ≠ 0 then f1
  else
    let f2 := byTagName doc tag
    if f2.length ≠ 0 then f2 else byLocalNameCI doc tag

/-- The per-kind tag selectors of the v3 loader (viewer.js lines 1221-1226). -/
def selectorsFor (kind : String) : List String :=
  if kind = "persons" then ["person"]
  else if kind = "places" then ["place"]
  else if kind = "orgs" then ["org"]
  else if kind = "events" then ["eventName", "event"]
  else [kind]

/-- The tag loop `for (const tag of tags) { ...; if (found.length) nodes = nodes.concat(found); }`. -/
def kindNodes (doc : XNode) (tags : List String) : List XNode :=
  tags.foldl (fun nodes tag =>
    let found := collectTagNodes doc tag
    if found.length ≠ 0 then nodes ++ found else nodes) []

/-- Entry id extraction of the v3 loader (viewer.js lines 1263-1266):
`attr(node,'id',XML_NS) || (node.getAttribute('xml:id')||'').trim() || (node.getAttribute('id')||'').trim()`
(in this model the namespaced and the literal `xml:id` reads coincide). -/
def entryId (node : XNode) : String :=
  let a := jsTrim ((node.getAttribute "xml:id").getD "")
  if a ≠ "" then a else jsTrim ((node.getAttribute "id").getD "")

/-- The standoff file table of the v3 loader (viewer.js lines 649-654), in
`Object.entries` insertion order: persons, places, orgs, events.  `base` is
the runtime-computed site prefix. -/
def STANDOFF_FILES_v3 (base : String) : List (String × String) :=
  [("persons", base ++ "letters_data/standoff/standoff_persons.xml"),
   ("places", base ++ "letters_data/standoff/standoff_places.xml"),
   ("orgs", base ++ "letters_data/standoff/standoff_orgs.xml"),
   ("events", base ++ "letters_data/standoff/standoff_events.xml")]

/-- The per-file loop of the v3 loader: fetch each file in order inside a
`try/catch` (a failure is logged and skipped), collecting `{kind, node}`
entries; also returns the list of attempted fetch paths. -/
def gatherEntries (env : Env) (files : List (String × String)) :
    List (String × XNode) × List String :=
  files.foldl (fun acc kp =>
    match env kp.2 with
    | .ok doc =>
      (acc.1 ++ (kindNodes doc (selectorsFor kp.1)).map (fun n => (kp.1, n)), acc.2 ++ [kp.2])
    | .error _ => (acc.1, acc.2 ++ [kp.2])) ([], [])

/-- The index-write loop (viewer.js lines 1262-1270): skip empty ids,
otherwise `STANDOFF_INDEX[id] = node` in entry order (last write wins). -/
def buildIndex (entries : List (String × XNode)) (init : List (String × XNode)) :
    List (String × XNode) :=
  entries.foldl (fun ix e =>
    let id := entryId e.2
    if id = "" then ix else setIndex id e.2 ix) init

/-- `loadStandoffFiles` of viewer.js lines 1213-1273 (guarded variant):
`if (STANDOFF_INDEX.__loaded) return;` then gather per file with try/catch,
write the index, and set `__loaded`. -/
def loadStandoffFiles_v3 (env : Env) (files : List (String × String))
    (st : LoaderState) : LoaderState :=
  if st.loaded then st
  else
    let gathered := gatherEntries env files
    { index := buildIndex gathered.1 st.index,
      loaded := true,
      fetched := st.fetched ++ gathered.2 }

/-- The standoff file table of the v1 loader (viewer.js lines 20-25), same
kind order. -/
def STANDOFF_FILES_v1 : List (String × String) :=
  [("persons", "../../data/standoff/standoff_persons.xml"),
   ("places", "../../data/standoff/standoff_places.xml"),
   ("orgs", "../../data/standoff/standoff_orgs.xml"),
   ("events", "../../data/standoff/standoff_events.xml")]

/-- `Promise.all(files.map(p => fetchXML(p)))`: all fetches are issued, and a
single failure rejects the whole batch. -/
def fetchAll (env : Env) : List String → Except String (List XNode)
  | [] => .ok []
  | p :: ps =>
    match env p with
    | .error e => .error e
    | .ok d =>
      match fetchAll env ps with
      | .error e => .error e
      | .ok ds => .ok (d :: ds)

/-- `getXmlId(el)` of viewer.js v1 lines 108-110 (no trimming). -/
def getXmlId (n : XNode) : String := (n.getAttribute "xml:id").getD ""

/-- An element carrying an `xml:id` attribute (XPath `//*[@xml:id]`). -/
def hasXmlIdAttr (n : XNode) : Bool :=
  match n with
  | .elem _ _ attrs _ => (getAttr attrs "xml:id").isSome
  | _ => false

/-- The v1 per-document indexing loop (viewer.js lines 169-177). -/
def indexDocV1 (doc : XNode) (ix : List (String × XNode)) : List (String × XNode) :=
  (doc.elemsUnder.filter hasXmlIdAttr).foldl (fun ix el =>
    let id := getXmlId el
    if id ≠ "" then setIndex id el ix else ix) ix

/-- `loadStandoffFiles` of viewer.js lines 162-180 (early variant):
`STANDOFF_INDEX = Object.create(null)` resets the index, all four files are
fetched through `Promise.all` (so every call fetches again, and one failure
rejects and aborts the whole load), then every element with an `xml:id` is
indexed.  There is no `__loaded` guard. -/
def loadStandoffFiles_v1 (env : Env) (st : LoaderState) : Except String LoaderState :=
  let paths := STANDOFF_FILES_v1.map (·.2)
  match fetchAll env paths with
  | .error e => .error e
  | .ok docs =>
    .ok { index := docs.foldl (fun ix d => indexDocV1 d ix) [],
          loaded := st.loaded,
          fetched := st.fetched ++ paths }

/-- An environment in which every standoff fetch succeeds with an (empty) TEI document. -/
def envAllOk : Env := fun _ => .ok (.elem TEI_NS "TEI" [] [])

/-- A one-person standoff document with id `p1`. -/
def personDocP1 : XNode :=
  .elem TEI_NS "TEI" []
    [.elem TEI_NS "listPerson" []
      [.elem TEI_NS "person" [("xml:id", "p1")] [.elem TEI_NS "persName" [] [.text "Ana"]]]]

/-- An environment in which the persons file fails and the places file succeeds. -/
def envPersonsFail : Env := fun path =>
  if path = "../../data/standoff/standoff_persons.xml" then .error "network error"
  else .ok (.elem TEI_NS "TEI" [] [])

/-- A persons standoff document carrying id `x1`. -/
def personDocX : XNode :=
  .elem TEI_NS "TEI" [] [.elem TEI_NS "person" [("xml:id", "x1")] [.text "P"]]

/-- A places standoff document carrying the SAME id `x1`. -/
def placeDocX : XNode :=
  .elem TEI_NS "TEI" [] [.elem TEI_NS "place" [("xml:id", "x1")] [.text "L"]]

/-- An environment where the persons and places files both define `x1`. -/
def env10 : Env := fun path =>
  if path = "/letters_data/standoff/standoff_persons.xml" then .ok personDocX
  else if path = "/letters_data/standoff/standoff_places.xml" then .ok placeDocX
  else .error "missing"

/-! ## HTML escaping and the standoff entry card renderers

Two card renderers are modelled:
* `renderStandoffEntryCardV3` — viewer.js lines 1450-1530, which routes every
  interpolated user-facing text through `escapeHTML` (viewer.js lines 693-700);
* `renderStandoffEntryCardV2` — part_004 lines 743-805, which interpolates the
  same fields verbatim (the part_004 variant has no `escapeHTML` at all).

The template literals are modelled keeping all markup text; insignificant
template indentation/newline whitespace is elided.  The helpers (`textOf`,
`qAllLocal`, `getDirectChildNotes`, `normUnknown`, `buildProjectURI`,
`formatPtBRDate`) are translated from the respective file. -/
/-- One global single-character replacement pass, `s.replace(/c/g, r)` for a
replacement with no special characters. -/
def replaceAll (c : Char) (r : List Char) (s : List Char) : List Char :=
  s.flatMap (fun x => if x = c then r else [x])

/-- `escapeHTML` (viewer.js lines 693-700): five successive global
replacements of the characters ampersand, `<`, `>`, double quote and single
quote by their entities. -/
def escapeHTML (s : String) : String :=
  String.mk (replaceAll '\x27' ['&', '#', '3', '9', ';']
    (replaceAll '"' ['&', 'q', 'u', 'o', 't', ';']
      (replaceAll '>' ['&', 'g', 't', ';']
        (replaceAll '<' ['&', 'l', 't', ';']
          (replaceAll '&' ['&', 'a', 'm', 'p', ';'] s.data)))))

/-- The number of `<` characters in a string — each one can open new markup. -/
def ltCount (s : String) : Nat := s.data.count '<'

/-- JS `parts.join('')`. -/
def joinAll : List String → String
  | [] => ""
  | x :: xs => x ++ joinAll xs

/-- JS `names.join(sep)`. -/
def joinSep (sep : String) : List String → String
  | [] => ""
  | [x] => x
  | x :: xs => x ++ sep ++ joinSep sep xs

/-- `textOf(node)`: `(node?.textContent || '').trim()`. -/
def textOf (n : XNode) : String := jsTrim n.textContent

/-- `textOf` through an optional node (`textOf(undefined) === ''`). -/
def optTextOf : Option XNode → String
  | some n => textOf n
  | none => ""

/-- JS string-or: `a || b` on strings (empty string is falsy). -/
def strOr (a b : String) : String := if a ≠ "" then a else b

/-- `normUnknown(v)`: empty or (case-insensitively) `"unknown"` becomes `''`. -/
def normUnknown (v : String) : String :=
  let s := jsTrim v
  if s = "" ∨ jsToLower s = "unknown" then "" else s

/-- `buildProjectURI(localId, kind)` (viewer.js lines 753-762). -/
def buildProjectURI (localId kind : String) : String :=
  if localId = "" then ""
  else if kind = "org" then "https://carlamenegat.github.io/VarelaDigital/org/" ++ localId
  else if kind = "place" then "https://carlamenegat.github.io/VarelaDigital/place/" ++ localId
  else if kind = "event" then "https://carlamenegat.github.io/VarelaDigital/event/" ++ localId
  else "https://carlamenegat.github.io/VarelaDigital/person/" ++ localId

/-- The Portuguese month names of `formatPtBRDate`. -/
def monthsPt : List String :=
  ["janeiro", "fevereiro", "março", "abril", "maio", "junho", "julho",
   "agosto", "setembro", "outubro", "novembro", "dezembro"]

/-- Decimal digits to a number (`parseInt(d, 10)` on an all-digit string). -/
def digitsToNat (l : List Char) : Nat :=
  l.foldl (fun a c => a * 10 + (c.toNat - '0'.toNat)) 0

/-- `months[m-1]` with JS out-of-range semantics: an index outside the array
yields `undefined`, which interpolates as the string `"undefined"`. -/
def monthName (m : Nat) : String :=
  if 1 ≤ m ∧ m ≤ 12 then (monthsPt.get? (m - 1)).getD "undefined" else "undefined"

/-- `formatPtBRDate(iso)` (viewer.js lines 763-788): match
`^(\d{4})(?:-(\d{2})(?:-(\d{2}))?)?$` and format as a pt-BR date,
returning `''` on no match. -/
def formatPtBRDate (iso : String) : String :=
  let s := jsTrim iso
  if s = "" then ""
  else
    let cs := s.data
    if cs.length = 4 ∧ cs.all Char.isDigit then s
    else if cs.length = 7 ∧ (cs.take 4).all Char.isDigit ∧ cs.get? 4 = some '-' ∧
        ((cs.drop 5).take 2).all Char.isDigit then
      monthName (digitsToNat ((cs.drop 5).take 2)) ++ " " ++ String.mk (cs.take 4)
    else if cs.length = 10 ∧ (cs.take 4).all Char.isDigit ∧ cs.get? 4 = some '-' ∧
        ((cs.drop 5).take 2).all Char.isDigit ∧ cs.get? 7 = some '-' ∧
        ((cs.drop 8).take 2).all Char.isDigit then
      Nat.repr (digitsToNat ((cs.drop 8).take 2)) ++ " " ++
        monthName (digitsToNat ((cs.drop 5).take 2)) ++ " " ++ String.mk (cs.take 4)
    else ""

/-- The element's `localName` (empty for non-elements, as `(x || '')`). -/
def localNameOf : XNode → String
  | .elem _ ln _ _ => ln
  | _ => ""

/-- Proper descendant elements of an entry (what `getElementsByTagName*`
traverses: descendants, excluding the entry itself). -/
def properDescElems (entry : XNode) : List XNode :=
  match entry with
  | .elem _ _ _ cs => elemsUnderList cs
  | _ => []

/-- `qAllLocal(entry, localName)`: `entry.getElementsByTagNameNS(TEI_NS, localName)`. -/
def qAllLocalE (entry : XNode) (ln : String) : List XNode :=
  (properDescElems entry).filter fun n =>
    match n with
    | .elem ns l _ _ => ns == TEI_NS && l == ln
    | _ => false

/-- `qAllAnyNS(entry, localName)`: `entry.getElementsByTagName(localName)`
(namespace-ignoring fallback of the v3 card). -/
def qAllAnyNSE (entry : XNode) (ln : String) : List XNode :=
  (properDescElems entry).filter fun n =>
    match n with
    | .elem _ l _ _ => l == ln
    | _ => false

/-- `getLocalId(entry)`: the trimmed `xml:id`. -/
def getLocalId (entry : XNode) : String := jsTrim ((entry.getAttribute "xml:id").getD "")

/-- `getDirectChildNotes` of viewer.js lines 1366-1377: direct element
children whose lowercased local name is `note` (no namespace check). -/
def getDirectChildNotesV3 (entry : XNode) : List XNode :=
  (match entry with | .elem _ _ _ cs => cs | _ => []).filter fun ch =>
    match ch with
    | .elem _ l _ _ => jsToLower l == "note"
    | _ => false

/-- `getDirectChildNotes` of part_004 lines 668-677: direct TEI-namespace
`note` children. -/
def getDirectChildNotesV2 (entry : XNode) : List XNode :=
  (match entry with | .elem _ _ _ cs => cs | _ => []).filter fun ch =>
    match ch with
    | .elem ns l _ _ => ns == TEI_NS && l == "note"
    | _ => false

/-- `a[0] || b[0]` on node lists. -/
def firstNodeOr (a b : List XNode) : Option XNode :=
  match a with
  | n :: _ => some n
  | [] => b.head?

/-- The `{type, value}` pairs of the entry's `idno` descendants, with the v3
any-namespace fallback when the TEI-namespace query finds nothing. -/
def idnoPairs (entry : XNode) : List (String × String) :=
  let idnos := (qAllLocalE entry "idno").map (fun n =>
    (jsTrim ((n.getAttribute "type").getD ""), textOf n))
  if idnos.length = 0 then
    (qAllAnyNSE entry "idno").map (fun n =>
      (jsTrim ((n.getAttribute "type").getD ""), textOf n))
  else idnos

/-- The `{type, value}` pairs of the part_004 variant (no fallback). -/
def idnoPairsV2 (entry : XNode) : List (String × String) :=
  (qAllLocalE entry "idno").map (fun n =>
    (jsTrim ((n.getAttribute "type").getD ""), textOf n))

/-- One external-identifier card line of the v3 renderer (escaped). -/
def idnoLinkPartV3 (t v : String) : String :=
  "<div class=\"annotation-idno small\"><strong>" ++ escapeHTML t ++
    ":</strong> <a href=\"" ++ escapeHTML v ++ "\" target=\"_blank\" rel=\"noopener\">" ++
    escapeHTML v ++ "</a></div>"

/-- One external-identifier card line of the part_004 renderer (raw). -/
def idnoLinkPartV2 (t v : String) : String :=
  "<div class=\"annotation-idno small\"><strong>" ++ t ++
    ":</strong> <a href=\"" ++ v ++ "\" target=\"_blank\" rel=\"noopener\">" ++
    v ++ "</a></div>"

/-- The `geonames: not set` placeholder line (identical in both variants). -/
def geonNotSetPart : String :=
  "<div class=\"annotation-idno small\"><strong>geonames:</strong> " ++
    "<span class=\"text-muted\">not set</span></div>"

/-- The synthesized project-URI line of the v3 renderer (escaped). -/
def projLinkPartV3 (proj : String) : String :=
  "<div class=\"annotation-idno small\"><strong>project:</strong> <a href=\"" ++
    escapeHTML proj ++ "\" target=\"_blank\" rel=\"noopener\">" ++ escapeHTML proj ++
    "</a></div>"

/-- The synthesized project-URI line of the part_004 renderer (raw). -/
def projLinkPartV2 (proj : String) : String :=
  "<div class=\"annotation-idno small\"><strong>project:</strong> <a href=\"" ++
    proj ++ "\" target=\"_blank\" rel=\"noopener\">" ++ proj ++ "</a></div>"

/-- The `parts` array built by `renderIdnos` of viewer.js lines 1378-1432:
one line per real external identifier, plus the `geonames: not set`
placeholder, plus the project fallback URI line. -/
def idnoPartsV3 (entry : XNode) (kind : String) : List String :=
  let idnos := idnoPairs entry
  let hasProjectPlaceholder := idnos.any (fun x => x.1 = "project")
  let filtered := idnos.filter (fun x => x.1 ≠ "" ∧ x.1 ≠ "project" ∧ x.2 ≠ "")
  (filtered.map (fun x => idnoLinkPartV3 x.1 x.2)) ++
  (match idnos.find? (fun x => x.1 = "geonames") with
   | some g => if g.2 = "" then [geonNotSetPart] else []
   | none => []) ++
  (if hasProjectPlaceholder ∨ filtered.length = 0 then
     (let proj := buildProjectURI (getLocalId entry) kind
      if proj ≠ "" then [projLinkPartV3 proj] else [])
   else [])

/-- `renderIdnos` of viewer.js lines 1378-1432: `parts.join('')`. -/
def renderIdnosV3 (entry : XNode) (kind : String) : String :=
  joinAll (idnoPartsV3 entry kind)

/-- `renderIdnos` of part_004 lines 679-722 (same structure, raw text). -/
def renderIdnosV2 (entry : XNode) (kind : String) : String :=
  let idnos := idnoPairsV2 entry
  let hasProjectPlaceholder := idnos.any (fun x => x.1 = "project")
  let filtered := idnos.filter (fun x => x.1 ≠ "" ∧ x.1 ≠ "project" ∧ x.2 ≠ "")
  let parts := filtered.map (fun x => idnoLinkPartV2 x.1 x.2)
  let parts := parts ++
    (match idnos.find? (fun x => x.1 = "geonames") with
     | some g => if g.2 = "" then [geonNotSetPart] else []
     | none => [])
  let parts := parts ++
    (if hasProjectPlaceholder ∨ filtered.length = 0 then
       (let proj := buildProjectURI (getLocalId entry) kind
        if proj ≠ "" then [projLinkPartV2 proj] else [])
     else [])
  joinAll parts

/-- The `kind → name element` map of `renderVariants`. -/
def variantTagFor (kind : String) : Option String :=
  if kind = "person" then some "persName"
  else if kind = "place" then some "placeName"
  else if kind = "org" then some "orgName"
  else none

/-- The non-empty name variants of the v3 `renderVariants` (viewer.js lines
1433-1448), with the any-namespace fallback.  Duplicates are NOT removed. -/
def variantNamesV3 (entry : XNode) (kind : String) : List String :=
  match variantTagFor kind with
  | none => []
  | some ln =>
    let names := ((qAllLocalE entry ln).map textOf).filter (fun s => s ≠ "")
    if names.length = 0 then ((qAllAnyNSE entry ln).map textOf).filter (fun s => s ≠ "")
    else names

/-- The non-empty name variants of the part_004 `renderVariants` (lines
724-741, no fallback).  Duplicates are NOT removed. -/
def variantNamesV2 (entry : XNode) (kind : String) : List String :=
  match variantTagFor kind with
  | none => []
  | some ln => ((qAllLocalE entry ln).map textOf).filter (fun s => s ≠ "")

/-- The variants block markup around its inner text. -/
def variantsBlock (inner : String) : String :=
  "<div class=\"small text-muted mb-2\"><strong>Variants:</strong> " ++ inner ++ "</div>"

/-- `renderVariants` of viewer.js lines 1433-1448. -/
def renderVariantsV3 (entry : XNode) (kind : String) : String :=
  match variantTagFor kind with
  | none => ""
  | some _ =>
    let names := variantNamesV3 entry kind
    if names.length ≤ 1 then ""
    else variantsBlock (escapeHTML (joinSep " · " names))

/-- `renderVariants` of part_004 lines 724-741 (raw). -/
def renderVariantsV2 (entry : XNode) (kind : String) : String :=
  match variantTagFor kind with
  | none => ""
  | some _ =>
    let names := variantNamesV2 entry kind
    if names.length ≤ 1 then ""
    else variantsBlock (joinSep " · " names)

/-- `getFirst(localName)` of the v3 card (TEI query, any-namespace fallback). -/
def getFirstV3 (entry : XNode) (ln : String) : String :=
  let nodes := qAllLocalE entry ln
  let nodes := if nodes.length = 0 then qAllAnyNSE entry ln else nodes
  match nodes with
  | [] => ""
  | n :: _ => textOf n

/-- `getFirst(localName)` of the part_004 card (TEI query only). -/
def getFirstV2 (entry : XNode) (ln : String) : String :=
  match qAllLocalE entry ln with
  | [] => ""
  | n :: _ => textOf n

/-- `birthNode?.getAttribute('when') || ''` with the v3 fallback chain. -/
def birthWhenV3 (entry : XNode) : String :=
  ((firstNodeOr (qAllLocalE entry "birth") (qAllAnyNSE entry "birth")).bind
    (fun n => n.getAttribute "when")).getD ""

/-- `deathNode?.getAttribute('when') || ''` with the v3 fallback chain. -/
def deathWhenV3 (entry : XNode) : String :=
  ((firstNodeOr (qAllLocalE entry "death") (qAllAnyNSE entry "death")).bind
    (fun n => n.getAttribute "when")).getD ""

/-- The first event date's `when` with the v3 fallback chain. -/
def eventWhenV3 (entry : XNode) : String :=
  ((firstNodeOr (qAllLocalE entry "date") (qAllAnyNSE entry "date")).bind
    (fun n => n.getAttribute "when")).getD ""

/-- The v3 person birth–death line (escaped; shown only when a value remains
after `normUnknown`). -/
def personExtraV3 (entry : XNode) : String :=
  let birth := normUnknown (birthWhenV3 entry)
  let death := normUnknown (deathWhenV3 entry)
  if birth ≠ "" ∨ death ≠ "" then
    "<div class=\"small text-muted mb-1\">" ++ escapeHTML birth ++
      (if birth ≠ "" ∧ death ≠ "" then " – " else "") ++ escapeHTML death ++ "</div>"
  else ""

/-- The v3 event date line (escaped). -/
def eventExtraV3 (entry : XNode) : String :=
  let w := eventWhenV3 entry
  if w ≠ "" then
    "<div class=\"small text-muted mb-1\">" ++ escapeHTML (strOr (formatPtBRDate w) w) ++
      "</div>"
  else ""

/-- The v3 place title: prefer the placeName typed `historical`. -/
def placeTitleV3 (entry : XNode) : String :=
  let pns :=
    (let p := qAllLocalE entry "placeName"
     if p.length = 0 then qAllAnyNSE entry "placeName" else p)
  let historical := pns.find? (fun n => jsToLower ((n.getAttribute "type").getD "") = "historical")
  strOr (optTextOf historical) (strOr (optTextOf pns.head?) "")

/-- The card `kind` of the v3 renderer: `eventName` entries count as `event`. -/
def cardKindV3 (entry : XNode) : String :=
  let tag := jsToLower (localNameOf entry)
  if tag = "eventname" then "event" else tag

/-- The v3 card title, per entry kind. -/
def cardTitleV3 (entry : XNode) : String :=
  let tag := jsToLower (localNameOf entry)
  if tag = "person" then getFirstV3 entry "persName"
  else if tag = "place" then placeTitleV3 entry
  else if tag = "org" then getFirstV3 entry "orgName"
  else if tag = "event" ∨ tag = "eventname" then
    strOr (getFirstV3 entry "desc")
      (strOr (getFirstV3 entry "eventName") ("Event " ++ getLocalId entry))
  else ""

/-- The v3 card secondary line, per entry kind. -/
def cardExtraV3 (entry : XNode) : String :=
  let tag := jsToLower (localNameOf entry)
  if tag = "person" then personExtraV3 entry
  else if tag = "event" ∨ tag = "eventname" then eventExtraV3 entry
  else ""

/-- The v3 card note: the LAST direct child note's text. -/
def cardNoteV3 (entry : XNode) : String := optTextOf (getDirectChildNotesV3 entry).getLast?

/-- `renderStandoffEntryCard` of viewer.js lines 1450-1530: every interpolated
user-facing text goes through `escapeHTML`. -/
def renderStandoffEntryCardV3 (entry : Option XNode) : String :=
  match entry with
  | none => "<p class=\"text-muted small\">No annotation available.</p>"
  | some entry =>
    let localId := getLocalId entry
    let kind := cardKindV3 entry
    let title := cardTitleV3 entry
    let extra := cardExtraV3 entry
    let note := cardNoteV3 entry
    let variants := renderVariantsV3 entry kind
    let idnos := renderIdnosV3 entry kind
    "<div class=\"annotation-card\"><h6 class=\"annotation-title\">" ++
      escapeHTML (strOr title (strOr localId "—")) ++ "</h6>" ++
      extra ++ variants ++
      (if idnos ≠ "" then "<div class=\"mb-2\">" ++ idnos ++ "</div>" else "") ++
      (if note ≠ "" then "<p class=\"small mb-0\">" ++ escapeHTML note ++ "</p>" else "") ++
      "</div>"

/-- The part_004 person birth–death line (raw). -/
def personExtraV2 (entry : XNode) : String :=
  let birth := normUnknown (((qAllLocalE entry "birth").head?.bind
    (fun n => n.getAttribute "when")).getD "")
  let death := normUnknown (((qAllLocalE entry "death").head?.bind
    (fun n => n.getAttribute "when")).getD "")
  if birth ≠ "" ∨ death ≠ "" then
    "<div class=\"small text-muted mb-1\">" ++ birth ++
      (if birth ≠ "" ∧ death ≠ "" then " – " else "") ++ death ++ "</div>"
  else ""

/-- The part_004 event date line (raw). -/
def eventExtraV2 (entry : XNode) : String :=
  let w := ((qAllLocalE entry "date").head?.bind (fun n => n.getAttribute "when")).getD ""
  if w ≠ "" then
    "<div class=\"small text-muted mb-1\">" ++ strOr (formatPtBRDate w) w ++ "</div>"
  else ""

/-- The part_004 place title. -/
def placeTitleV2 (entry : XNode) : String :=
  let pns := qAllLocalE entry "placeName"
  let historical := pns.find? (fun n => jsToLower ((n.getAttribute "type").getD "") = "historical")
  strOr (optTextOf historical) (strOr (optTextOf pns.head?) "")

/-- The part_004 card title, per entry kind. -/
def cardTitleV2 (entry : XNode) : String :=
  let tag := jsToLower (localNameOf entry)
  if tag = "person" then getFirstV2 entry "persName"
  else if tag = "place" then placeTitleV2 entry
  else if tag = "org" then getFirstV2 entry "orgName"
  else if tag = "event" then strOr (getFirstV2 entry "desc") ("Event " ++ getLocalId entry)
  else ""

/-- The part_004 card secondary line, per entry kind. -/
def cardExtraV2 (entry : XNode) : String :=
  let tag := jsToLower (localNameOf entry)
  if tag = "person" then personExtraV2 entry
  else if tag = "event" then eventExtraV2 entry
  else ""

/-- The part_004 card note: the LAST direct child TEI note's text. -/
def cardNoteV2 (entry : XNode) : String := optTextOf (getDirectChildNotesV2 entry).getLast?

/-- `renderStandoffEntryCard` of part_004 lines 743-805: the same card, but
NO interpolation is escaped (part_004 defines no `escapeHTML`). -/
def renderStandoffEntryCardV2 (entry : Option XNode) : String :=
  match entry with
  | none => "<p class=\"text-muted small\">No annotation available.</p>"
  | some entry =>
    let localId := getLocalId entry
    let kind := jsToLower (localNameOf entry)
    let title := cardTitleV2 entry
    let extra := cardExtraV2 entry
    let note := cardNoteV2 entry
    let variants := renderVariantsV2 entry kind
    let idnos := renderIdnosV2 entry kind
    "<div class=\"annotation-card\"><h6 class=\"annotation-title\">" ++
      strOr title (strOr localId "—") ++ "</h6>" ++
      extra ++ variants ++
      (if idnos ≠ "" then "<div class=\"mb-2\">" ++ idnos ++ "</div>" else "") ++
      (if note ≠ "" then "<p class=\"small mb-0\">" ++ note ++ "</p>" else "") ++
      "</div>"

/-- A person entry whose name contains literal markup. -/
def evilPersonEntry : XNode :=
  .elem TEI_NS "person" [("xml:id", "p9")]
    [.elem TEI_NS "persName" [] [.text "<b>X</b>"]]

/-- The same entry with a plain name. -/
def plainPersonEntry : XNode :=
  .elem TEI_NS "person" [("xml:id", "p9")]
    [.elem TEI_NS "persName" [] [.text "X"]]

/-- An entry with two distinct name variants. -/
def twoNamesEntry : XNode :=
  .elem TEI_NS "person" [("xml:id", "p3")]
    [.elem TEI_NS "persName" [] [.text "João"],
     .elem TEI_NS "persName" [] [.text "J. Varela"]]

/-- An entry whose two name elements carry the SAME string. -/
def dupNamesEntry : XNode :=
  .elem TEI_NS "person" [("xml:id", "p2")]
    [.elem TEI_NS "persName" [] [.text "João"],
     .elem TEI_NS "persName" [] [.text "João"]]

/-! ### Theorems -/

example : jsToLower "PersName" = "persname" := by decide

example :
    XNode.textContent (.elem TEI_NS "seg" [] [.text "Fol. ", .elem TEI_NS "hi" [] [.text "12R"]])
      = "Fol. 12R" := by decide

example : jsTrim "  a b\n" = "a b" := by decide

example :
    renderNode "reading" (.elem TEI_NS "p" [] [.text "hi"]) = .elem "p" "" [] [.text "hi"] := rfl

example :
    renderNode "reading"
        (.elem TEI_NS "choice" []
          [.elem TEI_NS "abbr" [] [.text "Sr."], .elem TEI_NS "expan" [] [.text "Senhor"]])
      = .elem "span" "" [] [.text "Senhor"] := rfl

/-- The child-rendering loop is a `map` of `renderNode`. -/
theorem renderNodes_eq_map (mode : String) (cs : List XNode) :
    renderNodes mode cs = cs.map (renderNode mode) := by
  induction cs with
  | nil => simp [renderNodes]
  | cons c cs ih => simp [renderNodes, ih]

/-- The reading-mode `choice` branch renders the first `expan` element child
found by `childNodes.find`, or an empty fragment when none exists. -/
theorem renderFirstExpan_eq_find (mode : String) (cs : List XNode) :
    renderFirstExpan mode cs =
      (match cs.find? isExpanElem with
       | some e => renderNode mode e
       | none => HNode.frag []) := by
  induction cs with
  | nil => simp [renderFirstExpan]
  | cons c cs ih =>
    by_cases h : isExpanElem c
    · simp [renderFirstExpan, h, List.find?]
    · simp [renderFirstExpan, h, List.find?, ih]

/-- C1 (amended): for a TEI `choice` node, `renderNode` in reading mode renders
the first `expan` element child if one exists and otherwise an empty fragment —
it does NOT fall back to an `abbr` child; in any non-reading mode it renders a
plain `span` holding all children (the literal, unexpanded encoding). -/
theorem c1_choice_resolution (mode ns ln : String) (attrs : List (String × String))
    (children : List XNode) (hname : jsToLower ln = "choice") :
    renderNode "reading" (.elem ns ln attrs children) =
      (match children.find? isExpanElem with
       | some e => renderNode "reading" e
       | none => HNode.frag []) ∧
    (mode ≠ "reading" →
      renderNode mode (.elem ns ln attrs children) =
        .elem "span" "" [] (children.map (renderNode mode))) := by
  constructor
  · simp [renderNode, hname, renderFirstExpan_eq_find]
  · intro hmode
    simp [renderNode, hname, hmode, renderNodes_eq_map, spanGroupNames]

/-- Witness for `c1_choice_resolution` at a concrete choice node. -/
theorem c1_choice_resolution_witness :
    jsToLower "choice" = "choice" ∧
    (renderNode "reading"
        (.elem TEI_NS "choice" [] [XNode.elem TEI_NS "expan" [] [.text "Senhor"]]) =
      (match [XNode.elem TEI_NS "expan" [] [XNode.text "Senhor"]].find? isExpanElem with
       | some e => renderNode "reading" e
       | none => HNode.frag []) ∧
    ("encoded" ≠ "reading" →
      renderNode "encoded"
          (.elem TEI_NS "choice" [] [XNode.elem TEI_NS "expan" [] [.text "Senhor"]]) =
        .elem "span" "" []
          ([XNode.elem TEI_NS "expan" [] [XNode.text "Senhor"]].map (renderNode "encoded")))) :=
  ⟨rfl, c1_choice_resolution "encoded" TEI_NS "choice" []
    [XNode.elem TEI_NS "expan" [] [.text "Senhor"]] rfl⟩

/-- C1 counterexample: in reading mode, `renderNode` on a choice with only an
`abbr` child returns an empty fragment — the abbr content "Sr." is dropped,
not rendered as the claim states. -/
theorem c1_counterexample :
    renderNode "reading" choiceAbbrOnly = HNode.frag [] ∧
    (renderNode "reading" choiceAbbrOnly).htmlText = "" ∧
    XNode.textContent choiceAbbrOnly = "Sr." :=
  ⟨rfl, rfl, rfl⟩

/-- C2 (amended): an annotated-entity element (`persName`/`placeName`/`orgName`/
`date`) renders as a span with CSS class `annotated`; when a non-empty `ref`
attribute is present, the span's `data-ref` holds that attribute value VERBATIM
(including any leading `'#'` — stripping happens only later, at click-lookup
time); a `date` with a non-empty `when` additionally carries `data-when`. -/
theorem c2_annotated_span (mode ns ln : String) (attrs : List (String × String))
    (children : List XNode)
    (hname : jsToLower ln = "persname" ∨ jsToLower ln = "placename" ∨
             jsToLower ln = "orgname" ∨ jsToLower ln = "date") :
    renderNode mode (.elem ns ln attrs children) =
      .elem "span" "annotated" (refDataOf attrs ++ whenDataOf (jsToLower ln) attrs)
        (children.map (renderNode mode)) ∧
    (∀ r, getAttr attrs "ref" = some r → r ≠ "" →
      dataGet (refDataOf attrs ++ whenDataOf (jsToLower ln) attrs) "ref" = some r) ∧
    (∀ w, jsToLower ln = "date" → getAttr attrs "when" = some w → w ≠ "" →
      dataGet (refDataOf attrs ++ whenDataOf (jsToLower ln) attrs) "when" = some w) := by
  refine ⟨?_, ?_, ?_⟩
  · rcases hname with h | h | h | h <;>
      simp [renderNode, h, renderNodes_eq_map, spanGroupNames, divGroupNames]
  · intro r hr hne
    have h1 : refDataOf attrs = [("ref", r)] := by simp [refDataOf, hr, hne]
    simp [dataGet, getAttr, h1, List.find?]
  · intro w hdate hw hne
    have h2 : whenDataOf (jsToLower ln) attrs = [("when", w)] := by
      simp [whenDataOf, hdate, hw, hne]
    rcases hq : getAttr attrs "ref" with _ | r
    · have h1 : refDataOf attrs = [] := by simp [refDataOf, hq]
      simp [dataGet, getAttr, h1, h2, List.find?]
    · by_cases hre : r = ""
      · have h1 : refDataOf attrs = [] := by simp [refDataOf, hq, hre]
        simp [dataGet, getAttr, h1, h2, List.find?]
      · have h1 : refDataOf attrs = [("ref", r)] := by simp [refDataOf, hq, hre]
        simp [dataGet, getAttr, h1, h2, List.find?]

/-- Witness for `c2_annotated_span` at a concrete persName node. -/
theorem c2_annotated_span_witness :
    (jsToLower "persName" = "persname" ∨ jsToLower "persName" = "placename" ∨
     jsToLower "persName" = "orgname" ∨ jsToLower "persName" = "date") ∧
    (renderNode "reading" (.elem TEI_NS "persName" [("ref", "#p12")] [.text "N"]) =
       .elem "span" "annotated"
         (refDataOf [("ref", "#p12")] ++ whenDataOf (jsToLower "persName") [("ref", "#p12")])
         ([XNode.text "N"].map (renderNode "reading"))) ∧
    dataGet (refDataOf [("ref", "#p12")] ++ whenDataOf (jsToLower "persName") [("ref", "#p12")])
      "ref" = some "#p12" :=
  ⟨Or.inl rfl,
   (c2_annotated_span "reading" TEI_NS "persName" [("ref", "#p12")] [.text "N"] (Or.inl rfl)).1,
   (c2_annotated_span "reading" TEI_NS "persName" [("ref", "#p12")] [.text "N"] (Or.inl rfl)).2.1
     "#p12" rfl (by decide)⟩

/-- C2 counterexample: for `ref="#p-12"` the rendered span's `data-ref` is the
raw value `"#p-12"`, not the claim's `"p-12"` (the leading `'#'` is kept). -/
theorem c2_counterexample :
    (match renderNode "reading" persNameRefNode with
     | .elem _ _ da _ => dataGet da "ref"
     | _ => none) = some "#p-12" ∧ some "#p-12" ≠ some "p-12" :=
  ⟨rfl, by decide⟩

/-- A successful anchored match is never the empty token. -/
theorem folioAt_some_ne_nil {cs t : List Char} (h : folioAt cs = some t) : t ≠ [] := by
  simp only [folioAt] at h
  split at h
  · exact absurd h (by simp)
  · split at h
    · split at h
      · rw [Option.some.injEq] at h
        intro ht
        rw [ht] at h
        simp at h
      · exact absurd h (by simp)
    · exact absurd h (by simp)

/-- A successful scan is never the empty token. -/
theorem folioScan_some_ne_nil {cs t : List Char} (h : folioScan cs = some t) : t ≠ [] := by
  induction cs with
  | nil => simp [folioScan] at h
  | cons c cs ih =>
    simp only [folioScan] at h
    rcases hat : folioAt (c :: cs) with _ | t'
    · rw [hat] at h
      exact ih h
    · rw [hat] at h
      rw [Option.some.injEq] at h
      rw [← h]
      exact folioAt_some_ne_nil hat

/-- `folioScan` finds the leftmost match: a result means the pattern matches
at some position before which no position matches. -/
theorem folioScan_leftmost (cs : List Char) :
    (folioScan cs = none ↔ ∀ i, folioAt (cs.drop i) = none) ∧
    (∀ t, folioScan cs = some t →
      ∃ i, folioAt (cs.drop i) = some t ∧ ∀ j < i, folioAt (cs.drop j) = none) := by
  induction cs with
  | nil =>
    refine ⟨⟨fun _ i => by simp [folioAt], fun _ => rfl⟩, fun t ht => by simp [folioScan] at ht⟩
  | cons c cs ih =>
    constructor
    · constructor
      · intro h i
        rcases i with _ | i
        · simp only [List.drop]
          simp only [folioScan] at h
          rcases hat : folioAt (c :: cs) with _ | t
          · rfl
          · rw [hat] at h; exact absurd h (by simp)
        · simp only [List.drop]
          simp only [folioScan] at h
          rcases hat : folioAt (c :: cs) with _ | t
          · rw [hat] at h
            exact (ih.1.mp h) i
          · rw [hat] at h; exact absurd h (by simp)
      · intro h
        simp only [folioScan]
        have h0 := h 0
        simp only [List.drop] at h0
        rw [h0]
        exact ih.1.mpr (fun i => by
          have := h (i + 1); simpa using this)
    · intro t ht
      simp only [folioScan] at ht
      rcases hat : folioAt (c :: cs) with _ | t'
      · rw [hat] at ht
        obtain ⟨i, hi, hmin⟩ := ih.2 t ht
        refine ⟨i + 1, by simpa using hi, ?_⟩
        intro j hj
        rcases j with _ | j
        · simpa using hat
        · simp only [List.drop]
          exact hmin j (by omega)
      · rw [hat] at ht
        refine ⟨0, ?_, ?_⟩
        · simp only [List.drop]; rw [hat]; exact ht ▸ rfl
        · intro j hj; omega

/-- C9: folio extraction lowercases the whole text before matching and takes
the leftmost `\d+[rv]` token: `'Fol. 12R'` yields `'12r'`; with two tokens the
earlier one wins; with no token the result is the empty string (in general:
the result is `''` iff no position of the lowercased text matches, and a
non-empty result is the leftmost match). -/
theorem c9_folio_extraction :
    extractFolioFromSeg segFol12R = "12r" ∧
    extractFolioFromSeg segTwoTokens = "3v" ∧
    extractFolioFromSeg segNoToken = "" ∧
    (∀ seg : XNode,
      (extractFolioFromSeg seg = "" ↔
        ∀ i, folioAt ((jsToLower seg.textContent).data.drop i) = none)) ∧
    (∀ seg : XNode, ∀ t : List Char,
      folioScan (jsToLower seg.textContent).data = some t →
      extractFolioFromSeg seg = String.mk t ∧
      ∃ i, folioAt ((jsToLower seg.textContent).data.drop i) = some t ∧
        ∀ j < i, folioAt ((jsToLower seg.textContent).data.drop j) = none) := by
  refine ⟨rfl, rfl, rfl, ?_, ?_⟩
  · intro seg
    constructor
    · intro h
      apply (folioScan_leftmost (jsToLower seg.textContent).data).1.mp
      rcases hs : folioScan (jsToLower seg.textContent).data with _ | t
      · rfl
      · exfalso
        have hmk : String.mk t = "" := by
          simpa [extractFolioFromSeg, hs] using h
        have ht : t = [] := by simpa using congrArg String.data hmk
        exact folioScan_some_ne_nil hs ht
    · intro h
      have hnone := (folioScan_leftmost (jsToLower seg.textContent).data).1.mpr h
      simp [extractFolioFromSeg, hnone]
  · intro seg t ht
    refine ⟨by simp [extractFolioFromSeg, ht], ?_⟩
    exact (folioScan_leftmost (jsToLower seg.textContent).data).2 t ht

/-- Witness for `c9_folio_extraction`'s universally quantified parts at a
concrete segment. -/
theorem c9_folio_extraction_witness :
    (extractFolioFromSeg segNoToken = "" ↔
      ∀ i, folioAt ((jsToLower segNoToken.textContent).data.drop i) = none) ∧
    (extractFolioFromSeg segFol12R = String.mk ['1', '2', 'r'] ∧
      ∃ i, folioAt ((jsToLower segFol12R.textContent).data.drop i) = some ['1', '2', 'r'] ∧
        ∀ j < i, folioAt ((jsToLower segFol12R.textContent).data.drop j) = none) :=
  ⟨(c9_folio_extraction.2.2.2.1 segNoToken),
   (c9_folio_extraction.2.2.2.2 segFol12R ['1', '2', 'r'] rfl)⟩

/-- `bucketGet` on a cons cell. -/
theorem bucketGet_cons (k : Option String) (v : List XNode) (rest : Buckets) (s : Option String) :
    bucketGet ((k, v) :: rest) s = if k = s then some v else bucketGet rest s := by
  by_cases h : k = s <;> simp [bucketGet, List.find?, h]

/-- `ensure` unfolded on a cons cell. -/
theorem ensure_cons (t k : Option String) (v : List XNode) (rest : Buckets) :
    ensure t ((k, v) :: rest) = if k = t then (k, v) :: rest else (k, v) :: ensure t rest := rfl

/-- `pushTo` unfolded on a cons cell. -/
theorem pushTo_cons (t : Option String) (n : XNode) (k : Option String) (v : List XNode)
    (rest : Buckets) :
    pushTo t n ((k, v) :: rest) =
      if k = t then (k, v ++ [n]) :: rest else (k, v) :: pushTo t n rest := rfl

/-- `ensure` does not change any bucket's content. -/
theorem bucketContent_ensure (t : Option String) (b : Buckets) (s : Option String) :
    bucketContent (ensure t b) s = bucketContent b s := by
  induction b with
  | nil =>
    by_cases h : t = s <;> simp [ensure, bucketContent, bucketGet_cons, bucketGet, h]
  | cons kv rest ih =>
    obtain ⟨k, v⟩ := kv
    rw [ensure_cons]
    by_cases hk : k = t
    · rw [if_pos hk]
    · rw [if_neg hk]
      by_cases hs : k = s
      · unfold bucketContent
        rw [bucketGet_cons, bucketGet_cons, if_pos hs, if_pos hs]
      · unfold bucketContent
        rw [bucketGet_cons, bucketGet_cons, if_neg hs, if_neg hs]
        exact ih

/-- `pushTo` appends to exactly the addressed bucket. -/
theorem bucketContent_pushTo (t : Option String) (n : XNode) (b : Buckets) (s : Option String) :
    bucketContent (pushTo t n b) s =
      bucketContent b s ++ (if t = s then [n] else []) := by
  induction b with
  | nil =>
    by_cases h : t = s <;> simp [pushTo, bucketContent, bucketGet_cons, bucketGet, h]
  | cons kv rest ih =>
    obtain ⟨k, v⟩ := kv
    rw [pushTo_cons]
    by_cases hk : k = t
    · rw [if_pos hk]
      by_cases hs : k = s
      · have hts : t = s := hk.symm.trans hs
        unfold bucketContent
        rw [bucketGet_cons, bucketGet_cons, if_pos hs, if_pos hs, if_pos hts]
        rfl
      · have hts : ¬t = s := fun h => hs (hk.trans h)
        unfold bucketContent
        rw [bucketGet_cons, bucketGet_cons, if_neg hs, if_neg hs, if_neg hts]
        simp
    · rw [if_neg hk]
      by_cases hs : k = s
      · have hts : ¬t = s := fun h => hk (hs.trans h.symm)
        unfold bucketContent
        rw [bucketGet_cons, bucketGet_cons, if_pos hs, if_pos hs, if_neg hts]
        simp
      · unfold bucketContent
        rw [bucketGet_cons, bucketGet_cons, if_neg hs, if_neg hs]
        exact ih

/-- The slicing loop fills each bucket with exactly the nodes the state
machine labels with that bucket's surface, in document order. -/
theorem bucketContent_sliceLoop (ns : List XNode) (b : Buckets) (active w : Option String) :
    bucketContent (sliceLoop b active ns) w =
      bucketContent b w ++ ((surfaceLabels active ns).filter (fun p => p.1 = w)).map (·.2) := by
  induction ns generalizing b active with
  | nil => simp [sliceLoop, surfaceLabels]
  | cons n rest ih =>
    by_cases hpb : isPbMarker n
    · simp [sliceLoop, surfaceLabels, hpb, ih]
    · by_cases hseg : isFolioSeg n
      · simp [sliceLoop, surfaceLabels, hpb, hseg, ih]
      · by_cases hnote : isEndorsementNote n
        · by_cases hkey : endorsementKey n active = w <;>
            simp [sliceLoop, surfaceLabels, hpb, hseg, hnote, ih,
              bucketContent_pushTo, hkey, List.filter]
        · by_cases hact : active = w <;>
            simp [sliceLoop, surfaceLabels, hpb, hseg, hnote, ih,
              bucketContent_pushTo, hact, List.filter]

/-- Every pre-created bucket is empty. -/
theorem bucketContent_initBuckets (surfaces : List String) (w : Option String) :
    bucketContent (initBuckets surfaces) w = [] := by
  suffices h : ∀ (ss : List String) (b : Buckets),
      bucketContent (ss.foldl (fun b s => ensure (some s) b) b) w = bucketContent b w by
    simpa [initBuckets, bucketContent, bucketGet] using h surfaces []
  intro ss
  induction ss with
  | nil => intro b; simp
  | cons s rest ih => intro b; simp [List.foldl, ih, bucketContent_ensure]

/-- C4: `sliceBySurface` returns exactly the requested surface's slice of the
state-machine labeling: the active surface starts at the first declared surface
(so content before any marker belongs to it, not to a null bucket), switches on
page-break markers (to the page identifier) and folio segments (to the
extracted folio code), an endorsement-type note goes to the folio named in its
own place attribute when present (else the active surface), and a requested
surface with no content yields the empty list. -/
theorem c4_slice_characterization (surfaces : List String) (divChildren : List XNode)
    (target : String) :
    sliceBySurface surfaces divChildren target =
      ((surfaceLabels surfaces.head? (collectTopLevelElementNodes divChildren)).filter
        (fun p => p.1 = (if normalizeFolio target ≠ "" then some (normalizeFolio target)
                         else surfaces.head?))).map (·.2) ∧
    (normalizeFolio target ≠ "" →
      (∀ p ∈ surfaceLabels surfaces.head? (collectTopLevelElementNodes divChildren),
        p.1 ≠ some (normalizeFolio target)) →
      sliceBySurface surfaces divChildren target = []) := by
  have hmain :
      sliceBySurface surfaces divChildren target =
        ((surfaceLabels surfaces.head? (collectTopLevelElementNodes divChildren)).filter
          (fun p => p.1 = (if normalizeFolio target ≠ "" then some (normalizeFolio target)
                           else surfaces.head?))).map (·.2) := by
    show bucketContent (sliceBuckets surfaces divChildren) _ = _
    rw [sliceBuckets, bucketContent_sliceLoop, bucketContent_initBuckets]
    simp
  refine ⟨hmain, fun hne hall => ?_⟩
  rw [hmain]
  have hfil : (surfaceLabels surfaces.head? (collectTopLevelElementNodes divChildren)).filter
      (fun p => p.1 = (if normalizeFolio target ≠ "" then some (normalizeFolio target)
                       else surfaces.head?)) = [] := by
    rw [List.filter_eq_nil_iff]
    intro p hp
    rw [if_pos hne]
    simpa using hall p hp
  rw [hfil]
  rfl

/-- Witness for `c4_slice_characterization` at concrete inputs (surface `9r`
has no content, so the empty list is returned). -/
theorem c4_slice_characterization_witness :
    (sliceBySurface ["a"] [pElemOne] "9r" =
      ((surfaceLabels (["a"].head?) (collectTopLevelElementNodes [pElemOne])).filter
        (fun p => p.1 = (if normalizeFolio "9r" ≠ "" then some (normalizeFolio "9r")
                         else (["a"].head?)))).map (·.2)) ∧
    sliceBySurface ["a"] [pElemOne] "9r" = [] := by
  refine ⟨(c4_slice_characterization ["a"] [pElemOne] "9r").1,
    (c4_slice_characterization ["a"] [pElemOne] "9r").2 (by decide) ?_⟩
  intro p hp
  have hl : surfaceLabels (["a"].head?) (collectTopLevelElementNodes [pElemOne]) =
      [(some "a", pElemOne)] := rfl
  rw [hl, List.mem_singleton] at hp
  rw [hp]
  decide

/-- Flattened content after a `pushTo` is a permutation of the old content
plus the pushed node. -/
theorem flatten_pushTo (t : Option String) (n : XNode) (b : Buckets) :
    List.Perm ((pushTo t n b).map (·.2)).flatten ((b.map (·.2)).flatten ++ [n]) := by
  induction b with
  | nil => simp [pushTo]
  | cons kv rest ih =>
    obtain ⟨k, v⟩ := kv
    by_cases hk : k = t
    · simp only [pushTo, hk, if_pos, List.map_cons, List.flatten_cons]
      have h1 : (v ++ [n]) ++ (rest.map (·.2)).flatten
          = v ++ ([n] ++ (rest.map (·.2)).flatten) := by
        simp [List.append_assoc]
      have h2 : (v ++ (rest.map (·.2)).flatten) ++ [n]
          = v ++ ((rest.map (·.2)).flatten ++ [n]) := by
        simp [List.append_assoc]
      rw [h1, h2]
      exact List.Perm.append_left v List.perm_append_comm
    · simp only [pushTo, hk, if_neg, not_false_iff, List.map_cons, List.flatten_cons]
      have h2 : (v ++ (rest.map (·.2)).flatten) ++ [n]
          = v ++ ((rest.map (·.2)).flatten ++ [n]) := by
        simp [List.append_assoc]
      rw [h2]
      exact List.Perm.append_left v ih

/-- `ensure` does not change the flattened content. -/
theorem flatten_ensure (t : Option String) (b : Buckets) :
    ((ensure t b).map (·.2)).flatten = (b.map (·.2)).flatten := by
  induction b with
  | nil => simp [ensure]
  | cons kv rest ih =>
    obtain ⟨k, v⟩ := kv
    by_cases hk : k = t <;> simp [ensure, hk, ih]

/-- The loop's flattened buckets are a permutation of the incoming flattened
buckets plus all non-marker nodes. -/
theorem flatten_sliceLoop (ns : List XNode) (b : Buckets) (active : Option String) :
    List.Perm ((sliceLoop b active ns).map (·.2)).flatten
      ((b.map (·.2)).flatten ++ ns.filter (fun n => !isSurfaceMarker n)) := by
  induction ns generalizing b active with
  | nil => simp [sliceLoop]
  | cons n rest ih =>
    by_cases hpb : isPbMarker n
    · have hm : isSurfaceMarker n = true := by simp [isSurfaceMarker, hpb]
      simpa [sliceLoop, hpb, List.filter, hm] using ih b (pbNext n active)
    · by_cases hseg : isFolioSeg n
      · have hm : isSurfaceMarker n = true := by simp [isSurfaceMarker, hseg]
        simpa [sliceLoop, hpb, hseg, List.filter, hm] using ih b (segNext n active)
      · have hm : isSurfaceMarker n = false := by simp [isSurfaceMarker, hpb, hseg]
        have hfil : (n :: rest).filter (fun x => !isSurfaceMarker x)
            = n :: rest.filter (fun x => !isSurfaceMarker x) := by
          simp [List.filter, hm]
        by_cases hnote : isEndorsementNote n
        · have hgoal : sliceLoop b active (n :: rest)
              = sliceLoop (pushTo (endorsementKey n active) n b) active rest := by
            simp [sliceLoop, hpb, hseg, hnote]
          rw [hgoal, hfil]
          have hstep := ih (pushTo (endorsementKey n active) n b) active
          have hpush := List.Perm.append_right (rest.filter (fun x => !isSurfaceMarker x))
            (flatten_pushTo (endorsementKey n active) n b)
          have hassoc : ((b.map (·.2)).flatten ++ [n]) ++ rest.filter (fun x => !isSurfaceMarker x)
              = (b.map (·.2)).flatten ++ (n :: rest.filter (fun x => !isSurfaceMarker x)) := by
            simp [List.append_assoc]
          rw [hassoc] at hpush
          exact hstep.trans hpush
        · have hgoal : sliceLoop b active (n :: rest)
              = sliceLoop (pushTo active n b) active rest := by
            simp [sliceLoop, hpb, hseg, hnote]
          rw [hgoal, hfil]
          have hstep := ih (pushTo active n b) active
          have hpush := List.Perm.append_right (rest.filter (fun x => !isSurfaceMarker x))
            (flatten_pushTo active n b)
          have hassoc : ((b.map (·.2)).flatten ++ [n]) ++ rest.filter (fun x => !isSurfaceMarker x)
              = (b.map (·.2)).flatten ++ (n :: rest.filter (fun x => !isSurfaceMarker x)) := by
            simp [List.append_assoc]
          rw [hassoc] at hpush
          exact hstep.trans hpush

/-- The pre-created buckets flatten to nothing. -/
theorem flatten_initBuckets (surfaces : List String) :
    ((initBuckets surfaces).map (·.2)).flatten = [] := by
  suffices h : ∀ (ss : List String) (b : Buckets),
      ((ss.foldl (fun b s => ensure (some s) b) b).map (·.2)).flatten = (b.map (·.2)).flatten by
    simpa [initBuckets] using h surfaces []
  intro ss
  induction ss with
  | nil => intro b; simp
  | cons s rest ih => intro b; simp [List.foldl, ih, flatten_ensure]

/-- C3 (amended): the concatenation of all surface buckets, in surface order,
is a PERMUTATION of the division's collected children minus the marker nodes
(page-break markers and folio segments): every non-marker content node lands
in exactly one bucket, neither duplicated nor dropped.  (Exact list equality —
the claim's "reconstructs the original children list" — fails when surfaces
are revisited out of order, see the counterexample.) -/
theorem c3_bucket_permutation (surfaces : List String) (divChildren : List XNode) :
    List.Perm (allBucketsConcat surfaces divChildren)
      ((collectTopLevelElementNodes divChildren).filter (fun n => !isSurfaceMarker n)) := by
  have h := flatten_sliceLoop (collectTopLevelElementNodes divChildren)
    (initBuckets surfaces) surfaces.head?
  rw [flatten_initBuckets] at h
  simpa [allBucketsConcat, sliceBuckets] using h

/-- C3 counterexample: with declared surfaces `a, b` and children
`[pb b, one, pb a, two]`, the buckets concatenated in surface order give
`[two, one]` — NOT the original non-marker order `[one, two]`; the
concatenation is only a permutation, not a reconstruction. -/
theorem c3_counterexample :
    (allBucketsConcat ["a", "b"] interleavedChildren).map XNode.textContent = ["two", "one"] ∧
    ((collectTopLevelElementNodes interleavedChildren).filter
      (fun n => !isSurfaceMarker n)).map XNode.textContent = ["one", "two"] ∧
    allBucketsConcat ["a", "b"] interleavedChildren ≠
      (collectTopLevelElementNodes interleavedChildren).filter (fun n => !isSurfaceMarker n) := by
  refine ⟨rfl, rfl, ?_⟩
  intro h
  have h2 := congrArg (List.map XNode.textContent) h
  have e1 : (allBucketsConcat ["a", "b"] interleavedChildren).map XNode.textContent
      = ["two", "one"] := rfl
  have e2 : ((collectTopLevelElementNodes interleavedChildren).filter
      (fun n => !isSurfaceMarker n)).map XNode.textContent = ["one", "two"] := rfl
  rw [e1, e2] at h2
  exact absurd h2 (by decide)

/-- C5 (amended): the guarded loader is idempotent — after any call the
`__loaded` flag is set, and a repeated call returns the state unchanged:
no further fetches, no index change. -/
theorem c5_guarded_loader_idempotent (env : Env) (files : List (String × String))
    (st : LoaderState) :
    loadStandoffFiles_v3 env files (loadStandoffFiles_v3 env files st) =
      loadStandoffFiles_v3 env files st := by
  by_cases h : st.loaded
  · simp [loadStandoffFiles_v3, h]
  · simp [loadStandoffFiles_v3, h]

/-- C5 counterexample: the early loader (viewer.js 162-180) is NOT a no-op on
a repeated call — the first call performs 4 fetches and the second call
performs 4 more (8 in total), contradicting "repeated calls perform no
further fetches". -/
theorem c5_counterexample :
    (match loadStandoffFiles_v1 envAllOk initState with
     | .ok st1 =>
       (st1.fetched.length,
        match loadStandoffFiles_v1 envAllOk st1 with
        | .ok st2 => st2.fetched.length
        | .error _ => 0)
     | .error _ => (0, 0)) = (4, 8) ∧ (4, 8) ≠ (4, 4) := by
  exact ⟨rfl, by decide⟩

/-- `indexGet` on a cons cell. -/
theorem indexGet_cons (k : String) (v : XNode) (rest : List (String × XNode)) (id : String) :
    indexGet id ((k, v) :: rest) = if k = id then some v else indexGet id rest := by
  by_cases h : k = id <;> simp [indexGet, List.find?, h]

/-- `setIndex` unfolded on a cons cell. -/
theorem setIndex_cons (k : String) (n : XNode) (k' : String) (v : XNode)
    (rest : List (String × XNode)) :
    setIndex k n ((k', v) :: rest) =
      if k' = k then (k', n) :: rest else (k', v) :: setIndex k n rest := rfl

/-- `indexGet` after a `setIndex`. -/
theorem indexGet_setIndex (id k : String) (n : XNode) (ix : List (String × XNode)) :
    indexGet id (setIndex k n ix) = if k = id then some n else indexGet id ix := by
  induction ix with
  | nil => by_cases h : k = id <;> simp [setIndex, indexGet, List.find?, h]
  | cons kv rest ih =>
    obtain ⟨k', v⟩ := kv
    rw [setIndex_cons]
    by_cases hk : k' = k
    · rw [if_pos hk]
      by_cases hid : k = id
      · rw [if_pos hid, indexGet_cons, if_pos (hk.trans hid)]
      · have hne : ¬k' = id := fun h => hid (hk.symm.trans h)
        rw [if_neg hid, indexGet_cons, indexGet_cons, if_neg hne, if_neg hne]
    · rw [if_neg hk]
      by_cases hid' : k' = id
      · have hkid : ¬k = id := fun h => hk (hid'.trans h.symm)
        rw [if_neg hkid, indexGet_cons, indexGet_cons, if_pos hid', if_pos hid']
      · rw [indexGet_cons, indexGet_cons, if_neg hid', if_neg hid', ih]

/-- A key present in the index stays present after any further write. -/
theorem indexGet_setIndex_preserve (id k : String) (n : XNode) (ix : List (String × XNode))
    (h : indexGet id ix ≠ none) : indexGet id (setIndex k n ix) ≠ none := by
  rw [indexGet_setIndex]
  by_cases hk : k = id <;> simp [hk, h]

/-- After `buildIndex`, the value at `id` is the last written entry with that
id, or whatever the initial index held. -/
theorem indexGet_buildIndex (entries : List (String × XNode))
    (init : List (String × XNode)) (id : String) (hid : id ≠ "") :
    indexGet id (buildIndex entries init) =
      (match entries.reverse.find? (fun e => entryId e.2 = id) with
       | some e => some e.2
       | none => indexGet id init) := by
  induction entries generalizing init with
  | nil => simp [buildIndex]
  | cons e es ih =>
    have hstep : buildIndex (e :: es) init =
        buildIndex es (if entryId e.2 = "" then init else setIndex (entryId e.2) e.2 init) := by
      simp only [buildIndex, List.foldl]
    rw [hstep, ih]
    have hrev : (e :: es).reverse = es.reverse ++ [e] := by simp
    rw [hrev, List.find?_append]
    rcases hfind : es.reverse.find? (fun x => decide (entryId x.2 = id)) with _ | x
    · rw [hfind]
      simp only [Option.none_or]
      by_cases he : entryId e.2 = id
      · have hne : ¬entryId e.2 = "" := fun hz => hid (he.symm.trans hz)
        rw [if_neg hne]
        subst he
        simp [List.find?, indexGet_setIndex]
      · by_cases hz : entryId e.2 = ""
        · rw [if_pos hz]
          simp [List.find?, he]
        · rw [if_neg hz]
          simp [List.find?, he, indexGet_setIndex]
    · rw [hfind]
      simp

/-- C6 (amended, guarded loader): per-file fault isolation — whatever the
other files do (missing, unparsable), every entry of a successfully fetched
file that carries a non-empty id ends up indexed, and the loader returns
normally (it is a total function; errors are caught per file). -/
theorem c6_fault_isolation (env : Env) (files : List (String × String))
    (st : LoaderState) (hload : st.loaded = false)
    (kind path : String) (doc : XNode) (hmem : (kind, path) ∈ files)
    (hok : env path = .ok doc)
    (node : XNode) (hnode : node ∈ kindNodes doc (selectorsFor kind))
    (hid : entryId node ≠ "") :
    indexGet (entryId node) (loadStandoffFiles_v3 env files st).index ≠ none := by
  have hentry : (kind, node) ∈ (gatherEntries env files).1 := by
    suffices h : ∀ (fs : List (String × String)) (acc : List (String × XNode) × List String),
        (kind, path) ∈ fs →
        (kind, node) ∈ (fs.foldl (fun acc kp =>
          match env kp.2 with
          | .ok doc =>
            (acc.1 ++ (kindNodes doc (selectorsFor kp.1)).map (fun n => (kp.1, n)),
             acc.2 ++ [kp.2])
          | .error _ => (acc.1, acc.2 ++ [kp.2])) acc).1 by
      exact h files ([], []) hmem
    intro fs
    induction fs with
    | nil => intro acc h; simp at h
    | cons f fs ih =>
      intro acc hmem'
      rcases List.mem_cons.mp hmem' with heq | htail
      · subst heq
        have hgrow : ∀ (fs' : List (String × String)) (acc' : List (String × XNode) × List String),
            (kind, node) ∈ acc'.1 →
            (kind, node) ∈ (fs'.foldl (fun acc kp =>
              match env kp.2 with
              | .ok doc =>
                (acc.1 ++ (kindNodes doc (selectorsFor kp.1)).map (fun n => (kp.1, n)),
                 acc.2 ++ [kp.2])
              | .error _ => (acc.1, acc.2 ++ [kp.2])) acc').1 := by
          intro fs'
          induction fs' with
          | nil => intro acc' h; exact h
          | cons g gs ihg =>
            intro acc' h
            rcases henv : env g.2 with e | d
            · exact ihg _ (by simp [List.foldl, henv, h])
            · refine ihg _ ?_
              simp only [List.foldl, henv]
              exact List.mem_append_left _ h
        refine hgrow fs _ ?_
        simp only [hok]
        refine List.mem_append_right _ ?_
        exact List.mem_map.mpr ⟨node, hnode, rfl⟩
      · rcases henv : env f.2 with e | d
        · exact ih _ htail
        · exact ih _ htail
  have hkey : indexGet (entryId node) (buildIndex (gatherEntries env files).1 st.index) ≠ none := by
    suffices h : ∀ (es : List (String × XNode)) (init : List (String × XNode)),
        ((kind, node) ∈ es ∨ indexGet (entryId node) init ≠ none) →
        indexGet (entryId node) (buildIndex es init) ≠ none by
      exact h _ st.index (Or.inl hentry)
    intro es
    induction es with
    | nil =>
      intro init h
      rcases h with h | h
      · simp at h
      · simpa [buildIndex] using h
    | cons e es ihe =>
      intro init h
      have hstep : buildIndex (e :: es) init =
          buildIndex es (if entryId e.2 = "" then init else setIndex (entryId e.2) e.2 init) := by
        simp only [buildIndex, List.foldl]
      rw [hstep]
      rcases h with h | h
      · rcases List.mem_cons.mp h with heq | htail
        · subst heq
          refine ihe _ (Or.inr ?_)
          rw [if_neg (by simpa using hid), indexGet_setIndex, if_pos (by simp)]
          simp
        · exact ihe _ (Or.inl htail)
      · refine ihe _ (Or.inr ?_)
        by_cases hz : entryId e.2 = ""
        · simpa [hz] using h
        · rw [if_neg hz]
          exact indexGet_setIndex_preserve _ _ _ _ h
  simpa [loadStandoffFiles_v3, hload] using hkey

/-- C6 counterexample: in the `Promise.all` variant (viewer.js 162-180) one
file's failure rejects the whole load — the loader throws and nothing at all
is indexed, contradicting per-file fault isolation. -/
theorem c6_counterexample :
    loadStandoffFiles_v1 envPersonsFail initState = .error "network error" :=
  rfl

/-- Witness for `c6_fault_isolation`: with three failing files and one
successful places file holding entry `p1`, the entry is indexed. -/
theorem c6_fault_isolation_witness :
    (initState.loaded = false) ∧
    indexGet (entryId (.elem TEI_NS "person" [("xml:id", "p1")]
        [.elem TEI_NS "persName" [] [.text "Ana"]]))
      (loadStandoffFiles_v3
        (fun path => if path = "persons.xml" then .ok personDocP1 else .error "gone")
        [("persons", "persons.xml"), ("places", "places.xml"),
         ("orgs", "orgs.xml"), ("events", "events.xml")]
        initState).index ≠ none := by
  refine ⟨rfl, ?_⟩
  exact c6_fault_isolation
    (fun path => if path = "persons.xml" then .ok personDocP1 else .error "gone")
    [("persons", "persons.xml"), ("places", "places.xml"),
     ("orgs", "orgs.xml"), ("events", "events.xml")]
    initState rfl "persons" "persons.xml" personDocP1 (by simp) (by simp)
    (.elem TEI_NS "person" [("xml:id", "p1")] [.elem TEI_NS "persName" [] [.text "Ana"]])
    (by
      have h : kindNodes personDocP1 (selectorsFor "persons") =
          [.elem TEI_NS "person" [("xml:id", "p1")]
            [.elem TEI_NS "persName" [] [.text "Ana"]]] := rfl
      rw [h]
      exact List.mem_singleton.mpr rfl)
    (by decide)

/-- C10: with the fixed load order persons, places, orgs, events of
`STANDOFF_FILES`, the built index maps a non-empty id to the LAST gathered
entry carrying that id (later files overwrite earlier ones), and the stored
value is the bare entry node — the id → node index keeps no record of the
kind/file it came from. -/
theorem c10_last_write_wins (env : Env) (base : String) (id : String) (hid : id ≠ "") :
    indexGet id (loadStandoffFiles_v3 env (STANDOFF_FILES_v3 base) initState).index =
      (match (gatherEntries env (STANDOFF_FILES_v3 base)).1.reverse.find?
          (fun e => entryId e.2 = id) with
       | some e => some e.2
       | none => none) := by
  have h1 : loadStandoffFiles_v3 env (STANDOFF_FILES_v3 base) initState =
      { index := buildIndex (gatherEntries env (STANDOFF_FILES_v3 base)).1 initState.index,
        loaded := true,
        fetched := initState.fetched ++ (gatherEntries env (STANDOFF_FILES_v3 base)).2 } := rfl
  rw [h1]
  show indexGet id (buildIndex (gatherEntries env (STANDOFF_FILES_v3 base)).1 initState.index) = _
  rw [indexGet_buildIndex _ _ _ hid]
  rcases h : (gatherEntries env (STANDOFF_FILES_v3 base)).1.reverse.find?
      (fun e => decide (entryId e.2 = id)) with _ | e
  · rw [h]
    simp [initState, indexGet, List.find?]
  · rw [h]

/-- Witness for `c10_last_write_wins`: `x1` is defined by both the persons
file and the later places file, and the index holds the places node. -/
theorem c10_last_write_wins_witness :
    ("x1" ≠ "") ∧
    (indexGet "x1" (loadStandoffFiles_v3 env10 (STANDOFF_FILES_v3 "/") initState).index =
      (match (gatherEntries env10 (STANDOFF_FILES_v3 "/")).1.reverse.find?
          (fun e => entryId e.2 = "x1") with
       | some e => some e.2
       | none => none)) ∧
    indexGet "x1" (loadStandoffFiles_v3 env10 (STANDOFF_FILES_v3 "/") initState).index =
      some (.elem TEI_NS "place" [("xml:id", "x1")] [.text "L"]) :=
  ⟨by decide, c10_last_write_wins env10 "/" "x1" (by decide), rfl⟩

/-- `ltCount` is additive over concatenation. -/
theorem ltCount_append (a b : String) : ltCount (a ++ b) = ltCount a + ltCount b := by
  simp [ltCount, String.data_append, List.count_append]

/-- A character absent from the replacement and from the input stays absent
after a replacement pass. -/
theorem not_mem_replaceAll_preserve (d c : Char) (r s : List Char)
    (hd : d ∉ r) (hs : d ∉ s) : d ∉ replaceAll c r s := by
  intro h
  rcases List.mem_flatMap.mp h with ⟨x, hx, hmem⟩
  by_cases hxc : x = c
  · rw [if_pos hxc] at hmem
    exact hd hmem
  · rw [if_neg hxc] at hmem
    rcases List.mem_singleton.mp hmem with rfl
    exact hs hx

/-- The pass replacing `c` removes every occurrence of `c` (when the
replacement does not reintroduce it). -/
theorem not_mem_replaceAll_self (c : Char) (r s : List Char) (hc : c ∉ r) :
    c ∉ replaceAll c r s := by
  intro h
  rcases List.mem_flatMap.mp h with ⟨x, hx, hmem⟩
  by_cases hxc : x = c
  · rw [if_pos hxc] at hmem
    exact hc hmem
  · rw [if_neg hxc] at hmem
    rcases List.mem_singleton.mp hmem with rfl
    exact hxc rfl

/-- Escaped text never contains a `<`: escaping prevents any interpolated
text from opening markup. -/
theorem ltCount_escapeHTML (s : String) : ltCount (escapeHTML s) = 0 := by
  apply List.count_eq_zero.mpr
  show '<' ∉ (escapeHTML s).data
  have h1 : '<' ∉ replaceAll '<' ['&', 'l', 't', ';']
      (replaceAll '&' ['&', 'a', 'm', 'p', ';'] s.data) :=
    not_mem_replaceAll_self _ _ _ (by decide)
  have h2 : '<' ∉ replaceAll '>' ['&', 'g', 't', ';']
      (replaceAll '<' ['&', 'l', 't', ';']
        (replaceAll '&' ['&', 'a', 'm', 'p', ';'] s.data)) :=
    not_mem_replaceAll_preserve _ _ _ _ (by decide) h1
  have h3 : '<' ∉ replaceAll '"' ['&', 'q', 'u', 'o', 't', ';'] _ :=
    not_mem_replaceAll_preserve _ _ _ _ (by decide) h2
  exact not_mem_replaceAll_preserve _ _ _ _ (by decide) h3

/-- `ltCount` of the empty string. -/
theorem ltCount_empty : ltCount "" = 0 := rfl

/-- Every identifier line of the escaped renderer opens exactly 6 tags,
whatever the identifier text contains. -/
theorem ltCount_idnoLinkPartV3 (t v : String) : ltCount (idnoLinkPartV3 t v) = 6 := by
  simp only [idnoLinkPartV3, ltCount_append, ltCount_escapeHTML]
  decide

/-- The `geonames: not set` line opens exactly 6 tags. -/
theorem ltCount_geonNotSetPart : ltCount geonNotSetPart = 6 := by decide

/-- The project-URI line opens exactly 6 tags, whatever the URI contains. -/
theorem ltCount_projLinkPartV3 (proj : String) : ltCount (projLinkPartV3 proj) = 6 := by
  simp only [projLinkPartV3, ltCount_append, ltCount_escapeHTML]
  decide

/-- Every part the escaped `renderIdnos` builds opens exactly 6 tags. -/
theorem ltCount_idnoPartsV3_mem (entry : XNode) (kind : String) :
    ∀ p ∈ idnoPartsV3 entry kind, ltCount p = 6 := by
  intro p hp
  simp only [idnoPartsV3, List.mem_append] at hp
  rcases hp with (hp | hp) | hp
  · rcases List.mem_map.mp hp with ⟨x, _, rfl⟩
    exact ltCount_idnoLinkPartV3 x.1 x.2
  · rcases hfind : (idnoPairs entry).find? (fun x => x.1 = "geonames") with _ | g
    · rw [hfind] at hp
      simp at hp
    · rw [hfind] at hp
      by_cases hg : g.2 = ""
      · simp [hg] at hp
        subst hp
        exact ltCount_geonNotSetPart
      · simp [hg] at hp
  · by_cases hcond : (idnoPairs entry).any (fun x => x.1 = "project") = true ∨
        ((idnoPairs entry).filter (fun x => x.1 ≠ "" ∧ x.1 ≠ "project" ∧ x.2 ≠ "")).length = 0
    · rw [if_pos hcond] at hp
      by_cases hproj : buildProjectURI (getLocalId entry) kind ≠ ""
      · rw [if_pos hproj] at hp
        rcases List.mem_singleton.mp hp with rfl
        exact ltCount_projLinkPartV3 _
      · rw [if_neg hproj] at hp
        simp at hp
    · rw [if_neg hcond] at hp
      simp at hp

/-- `joinAll` of parts that each open 6 tags opens `6 * length` tags. -/
theorem ltCount_joinAll_of_six (parts : List String) (h : ∀ p ∈ parts, ltCount p = 6) :
    ltCount (joinAll parts) = 6 * parts.length := by
  induction parts with
  | nil => simp [joinAll, ltCount_empty]
  | cons p ps ih =>
    have hp := h p (List.mem_cons_self p ps)
    have hps := ih (fun q hq => h q (List.mem_cons_of_mem p hq))
    simp [joinAll, ltCount_append, hp, hps]
    ring

/-- The escaped `renderIdnos` opens exactly 6 tags per identifier line. -/
theorem ltCount_renderIdnosV3 (entry : XNode) (kind : String) :
    ltCount (renderIdnosV3 entry kind) = 6 * (idnoPartsV3 entry kind).length := by
  rw [renderIdnosV3]
  exact ltCount_joinAll_of_six _ (ltCount_idnoPartsV3_mem entry kind)

/-- The identifier block is empty exactly when no identifier line exists. -/
theorem renderIdnosV3_eq_empty_iff (entry : XNode) (kind : String) :
    renderIdnosV3 entry kind = "" ↔ (idnoPartsV3 entry kind).length = 0 := by
  constructor
  · intro h
    have h6 := ltCount_renderIdnosV3 entry kind
    rw [h, ltCount_empty] at h6
    omega
  · intro h
    have hnil : idnoPartsV3 entry kind = [] := List.length_eq_zero.mp h
    simp [renderIdnosV3, hnil, joinAll]

/-- The wrapped identifier block of the card opens `2 + 6k` tags for `k`
identifier lines, or nothing when the block is absent. -/
theorem ltCount_idnosWrapV3 (entry : XNode) (kind : String) :
    ltCount (if renderIdnosV3 entry kind ≠ "" then
        "<div class=\"mb-2\">" ++ renderIdnosV3 entry kind ++ "</div>" else "") =
      (if (idnoPartsV3 entry kind).length = 0 then 0
       else 2 + 6 * (idnoPartsV3 entry kind).length) := by
  by_cases h : renderIdnosV3 entry kind = ""
  · rw [if_neg (by simpa using h), if_pos ((renderIdnosV3_eq_empty_iff entry kind).mp h)]
    exact ltCount_empty
  · have hlen : ¬(idnoPartsV3 entry kind).length = 0 :=
      fun hl => h ((renderIdnosV3_eq_empty_iff entry kind).mpr hl)
    rw [if_pos h, if_neg hlen, ltCount_append, ltCount_append, ltCount_renderIdnosV3]
    have h1 : ltCount "<div class=\"mb-2\">" = 1 := by decide
    have h2 : ltCount "</div>" = 1 := by decide
    rw [h1, h2]
    omega

/-- The person birth–death line opens 2 tags when shown, none otherwise —
independent of the date strings. -/
theorem ltCount_personExtraV3 (entry : XNode) :
    ltCount (personExtraV3 entry) =
      (if normUnknown (birthWhenV3 entry) ≠ "" ∨ normUnknown (deathWhenV3 entry) ≠ ""
       then 2 else 0) := by
  by_cases h : normUnknown (birthWhenV3 entry) ≠ "" ∨ normUnknown (deathWhenV3 entry) ≠ ""
  · rw [if_pos h]
    simp only [personExtraV3]
    rw [if_pos h]
    simp only [ltCount_append, ltCount_escapeHTML]
    by_cases hmid : normUnknown (birthWhenV3 entry) ≠ "" ∧ normUnknown (deathWhenV3 entry) ≠ ""
    · rw [if_pos hmid]
      decide
    · rw [if_neg hmid]
      decide
  · rw [if_neg h]
    simp only [personExtraV3]
    rw [if_neg h]
    exact ltCount_empty

/-- The event date line opens 2 tags when shown, none otherwise. -/
theorem ltCount_eventExtraV3 (entry : XNode) :
    ltCount (eventExtraV3 entry) = (if eventWhenV3 entry ≠ "" then 2 else 0) := by
  by_cases h : eventWhenV3 entry ≠ ""
  · rw [if_pos h]
    simp only [eventExtraV3]
    rw [if_pos h]
    simp only [ltCount_append, ltCount_escapeHTML]
    decide
  · rw [if_neg h]
    simp only [eventExtraV3]
    rw [if_neg h]
    exact ltCount_empty

/-- The card's secondary line opens 2 tags when its kind shows one, none
otherwise. -/
theorem ltCount_cardExtraV3 (entry : XNode) :
    ltCount (cardExtraV3 entry) =
      (if jsToLower (localNameOf entry) = "person" then
         (if normUnknown (birthWhenV3 entry) ≠ "" ∨ normUnknown (deathWhenV3 entry) ≠ ""
          then 2 else 0)
       else if jsToLower (localNameOf entry) = "event" ∨
           jsToLower (localNameOf entry) = "eventname" then
         (if eventWhenV3 entry ≠ "" then 2 else 0)
       else 0) := by
  by_cases hp : jsToLower (localNameOf entry) = "person"
  · rw [if_pos hp]
    simp only [cardExtraV3]
    rw [if_pos hp]
    exact ltCount_personExtraV3 entry
  · rw [if_neg hp]
    by_cases he : jsToLower (localNameOf entry) = "event" ∨
        jsToLower (localNameOf entry) = "eventname"
    · rw [if_pos he]
      simp only [cardExtraV3]
      rw [if_neg hp, if_pos he]
      exact ltCount_eventExtraV3 entry
    · rw [if_neg he]
      simp only [cardExtraV3]
      rw [if_neg hp, if_neg he]
      exact ltCount_empty

/-- The variants block opens 4 tags when shown, none otherwise — independent
of the name strings. -/
theorem ltCount_renderVariantsV3 (entry : XNode) (kind : String) :
    ltCount (renderVariantsV3 entry kind) =
      (match variantTagFor kind with
       | none => 0
       | some _ => if (variantNamesV3 entry kind).length ≤ 1 then 0 else 4) := by
  rcases htag : variantTagFor kind with _ | ln
  · simp [renderVariantsV3, htag, ltCount_empty]
  · simp only [renderVariantsV3, htag]
    by_cases hlen : (variantNamesV3 entry kind).length ≤ 1
    · rw [if_pos hlen, if_pos hlen]
      exact ltCount_empty
    · rw [if_neg hlen, if_neg hlen]
      simp only [variantsBlock, ltCount_append, ltCount_escapeHTML]
      decide

/-- The note block opens 2 tags when a note exists, none otherwise. -/
theorem ltCount_noteWrapV3 (entry : XNode) :
    ltCount (if cardNoteV3 entry ≠ "" then
        "<p class=\"small mb-0\">" ++ escapeHTML (cardNoteV3 entry) ++ "</p>" else "") =
      (if cardNoteV3 entry ≠ "" then 2 else 0) := by
  by_cases h : cardNoteV3 entry ≠ ""
  · rw [if_pos h, if_pos h]
    simp only [ltCount_append, ltCount_escapeHTML]
    decide
  · rw [if_neg h, if_neg h]
    exact ltCount_empty

/-- C7 (amended, viewer.js renderer): the number of markup-opening `<`
characters in the card produced by the escaped `renderStandoffEntryCard`
is a function of the card's SHAPE alone — which blocks are present and how
many identifier lines exist — never of the interpolated texts: title,
birth/death values, name variants, identifier types and values and note
text are all routed through `escapeHTML` and can open no markup. -/
theorem c7_card_escaping (entry : XNode) :
    ltCount (renderStandoffEntryCardV3 (some entry)) =
      4
      + (if jsToLower (localNameOf entry) = "person" then
           (if normUnknown (birthWhenV3 entry) ≠ "" ∨ normUnknown (deathWhenV3 entry) ≠ ""
            then 2 else 0)
         else if jsToLower (localNameOf entry) = "event" ∨
             jsToLower (localNameOf entry) = "eventname" then
           (if eventWhenV3 entry ≠ "" then 2 else 0)
         else 0)
      + (match variantTagFor (cardKindV3 entry) with
         | none => 0
         | some _ => if (variantNamesV3 entry (cardKindV3 entry)).length ≤ 1 then 0 else 4)
      + (if (idnoPartsV3 entry (cardKindV3 entry)).length = 0 then 0
         else 2 + 6 * (idnoPartsV3 entry (cardKindV3 entry)).length)
      + (if cardNoteV3 entry ≠ "" then 2 else 0) := by
  have hdecomp : ltCount (renderStandoffEntryCardV3 (some entry)) =
      ltCount "<div class=\"annotation-card\"><h6 class=\"annotation-title\">"
      + ltCount (escapeHTML (strOr (cardTitleV3 entry) (strOr (getLocalId entry) "—")))
      + ltCount "</h6>"
      + ltCount (cardExtraV3 entry)
      + ltCount (renderVariantsV3 entry (cardKindV3 entry))
      + ltCount (if renderIdnosV3 entry (cardKindV3 entry) ≠ "" then
          "<div class=\"mb-2\">" ++ renderIdnosV3 entry (cardKindV3 entry) ++ "</div>" else "")
      + ltCount (if cardNoteV3 entry ≠ "" then
          "<p class=\"small mb-0\">" ++ escapeHTML (cardNoteV3 entry) ++ "</p>" else "")
      + ltCount "</div>" := by
    simp only [renderStandoffEntryCardV3, ltCount_append]
  rw [hdecomp, ltCount_escapeHTML, ltCount_cardExtraV3, ltCount_renderVariantsV3,
    ltCount_idnosWrapV3, ltCount_noteWrapV3]
  have h1 : ltCount "<div class=\"annotation-card\"><h6 class=\"annotation-title\">" = 2 := by
    decide
  have h2 : ltCount "</h6>" = 1 := by decide
  have h3 : ltCount "</div>" = 1 := by decide
  rw [h1, h2, h3]
  omega

/-- C7 counterexample: the part_004 `renderStandoffEntryCard` interpolates the
title verbatim — a name containing `<b>` puts a literal `<b>` into the card
markup, and the tag count of the output depends on the corpus text
(contradicting "every piece of user-facing text is HTML-escaped"). -/
theorem c7_counterexample :
    List.IsInfix "<b>".data (renderStandoffEntryCardV2 (some evilPersonEntry)).data ∧
    ltCount (renderStandoffEntryCardV2 (some evilPersonEntry)) ≠
      ltCount (renderStandoffEntryCardV2 (some plainPersonEntry)) :=
  ⟨by decide, by decide⟩

/-- C8 (amended): the variants block is shown iff MORE THAN ONE non-empty
name string exists for the entity — duplicates are counted, there is no
dedup — and when shown the names are joined with the middle-dot separator. -/
theorem c8_variants_block (entry : XNode) (kind : String) :
    (renderVariantsV3 entry kind ≠ "" ↔ 2 ≤ (variantNamesV3 entry kind).length) ∧
    (2 ≤ (variantNamesV3 entry kind).length →
      renderVariantsV3 entry kind =
        variantsBlock (escapeHTML (joinSep " · " (variantNamesV3 entry kind)))) := by
  have hblock : variantsBlock (escapeHTML (joinSep " · " (variantNamesV3 entry kind))) ≠ "" := by
    intro heq
    have hc := congrArg ltCount heq
    rw [ltCount_empty] at hc
    simp only [variantsBlock, ltCount_append, ltCount_escapeHTML] at hc
    revert hc
    decide
  rcases htag : variantTagFor kind with _ | ln
  · have hnames : variantNamesV3 entry kind = [] := by
      simp [variantNamesV3, htag]
    constructor
    · simp [renderVariantsV3, htag, hnames]
    · intro h
      rw [hnames] at h
      simp at h
  · have hren : renderVariantsV3 entry kind =
        (if (variantNamesV3 entry kind).length ≤ 1 then ""
         else variantsBlock (escapeHTML (joinSep " · " (variantNamesV3 entry kind)))) := by
      simp only [renderVariantsV3, htag, variantNamesV3]
    by_cases hlen : (variantNamesV3 entry kind).length ≤ 1
    · rw [hren, if_pos hlen]
      constructor
      · constructor
        · intro h; exact absurd rfl h
        · intro h; omega
      · intro h; omega
    · rw [hren, if_neg hlen]
      constructor
      · constructor
        · intro _; omega
        · intro _; exact hblock
      · intro _; rfl

/-- Witness for `c8_variants_block` at a concrete two-variant entry. -/
theorem c8_variants_block_witness :
    (2 ≤ (variantNamesV3 twoNamesEntry "person").length) ∧
    renderVariantsV3 twoNamesEntry "person" =
      variantsBlock (escapeHTML (joinSep " · " (variantNamesV3 twoNamesEntry "person"))) :=
  ⟨by decide, (c8_variants_block twoNamesEntry "person").2 (by decide)⟩

/-- C8 counterexample: an entry with two identical name strings (a single
DISTINCT variant) still shows the variants block — the code counts non-empty
names without dedup, so the claim's "two identical name strings show no
variants block" is false. -/
theorem c8_counterexample :
    variantNamesV3 dupNamesEntry "person" = ["João", "João"] ∧
    (variantNamesV3 dupNamesEntry "person").dedup.length = 1 ∧
    renderVariantsV3 dupNamesEntry "person" ≠ "" :=
  ⟨by decide, by decide, by decide⟩

end VarelaDigital

